import Mathlib

/-!
Verification of the validation-and-materialization core of the
common-data-definitions repository.

The Python source operates on parsed YAML documents: dynamically typed
records (dicts) whose values are, in the data model, strings and integers.
We embed records as association lists over a dynamic value type `Val`
(string or integer), mirroring `dict.get` (first binding wins), Python
truthiness, and the places where a wrongly-typed value makes the source
raise (modelled with `Except`).  Error messages are modelled as inductive
error values together with rendering functions that mirror the source's
f-strings.
-/

set_option maxRecDepth 10000

namespace CDD

/-- A dynamic YAML scalar value: Python `str` or `int`. -/
inductive Val where
  | VStr (s : String)
  | VInt (n : Int)
  deriving DecidableEq, Repr

/-- Python truthiness of a value: `""` and `0` are falsy. -/
def Val.truthy : Val → Bool
  | .VStr s => !s.isEmpty
  | .VInt n => n != 0

/-- Python `str(v)` as used by f-string interpolation. -/
def Val.display : Val → String
  | .VStr s => s
  | .VInt n => toString n

/-- Python `str(x)` for an optional value (`None` prints as `"None"`). -/
def dispOpt : Option Val → String
  | none => "None"
  | some v => v.display

/-- A record (Python dict) as an association list; `get` is `dict.get`. -/
def Rec := List (String × Val)

instance : DecidableEq Rec := inferInstanceAs (DecidableEq (List (String × Val)))

/-- `r.get k` mirrors Python `r.get(k)`: `None` when the key is absent. -/
def Rec.get (r : Rec) (k : String) : Option Val :=
  match r with
  | [] => none
  | (k', v) :: rest => if k' = k then some v else Rec.get rest k

/-- `r.getD k` mirrors Python `r.get(k, '')` (default empty string). -/
def Rec.getD (r : Rec) (k : String) : Val :=
  (r.get k).getD (.VStr "")

/-- Truthiness of `r.get(k)`: present and truthy. -/
def Rec.truthyGet (r : Rec) (k : String) : Option Val :=
  match r.get k with
  | some v => if v.truthy then some v else none
  | none => none

/-- The parsed parameters document (`data/parameters.yaml`): the four
top-level lists, each `none` when the key is absent (`'parameters' in data`). -/
structure ParamsDoc where
  parameters : Option (List Rec)
  breadcrumb_fields : Option (List Rec)
  vg5_fields : Option (List Rec)
  abbr_metrics : Option (List Rec)
  deriving DecidableEq

/-- The parsed protocols document (`data/protocols.yaml`). -/
structure ProtosDoc where
  protocol_groups : Option (List Rec)
  protocols : Option (List Rec)
  deriving DecidableEq

/-- A source file as seen by the loaders: absent on disk, present but not
YAML-parseable, or parsed into a document. -/
inductive SrcFile (α : Type) where
  | missing
  | malformed
  | parsed (doc : α)
  deriving DecidableEq

/-- `Path(f).exists()`: a malformed file still exists on disk. -/
def SrcFile.fileExists : SrcFile α → Bool
  | .missing => false
  | _ => true

/-- The top-level list under an optional key, `[]` when absent: the
source's `if 'parameters' in data:` guards make an absent list a no-op. -/
def optList (o : Option (List Rec)) : List Rec := o.getD []

/-! ## String helpers mirroring the source's regexes and URL checks -/

/-- lowercase letter. -/
def isLowerAlpha (c : Char) : Bool := 'a' ≤ c && c ≤ 'z'

/-- uppercase letter. -/
def isUpperAlpha (c : Char) : Bool := 'A' ≤ c && c ≤ 'Z'

/-- digit. -/
def isDigitCh (c : Char) : Bool := '0' ≤ c && c ≤ '9'

/-- `re.match(r'^[a-z][a-z0-9_]*[a-z0-9]$', text)` from `_is_valid_snake_case`. -/
def is_valid_snake_case (s : String) : Bool :=
  match s.toList with
  | [] => false
  | [_] => false
  | c :: rest =>
    isLowerAlpha c &&
    (rest.dropLast.all (fun d => isLowerAlpha d || isDigitCh d || d = '_')) &&
    (match rest.getLast? with
     | some d => isLowerAlpha d || isDigitCh d
     | none => false)

/-- `re.match(r'^[A-Z]{2,6}$', text)` from `_is_valid_abbreviation`. -/
def is_valid_abbreviation (s : String) : Bool :=
  2 ≤ s.length && s.length ≤ 6 && s.toList.all isUpperAlpha

/-- Python `str.isdigit()` (ASCII digits; empty string is falsy before use). -/
def strIsDigit (s : String) : Bool :=
  !s.isEmpty && s.toList.all isDigitCh

/-- One `0x…` component of a J1979 PID: `0x` followed by `[0-9A-F]+`. -/
def j1979HexPart (s : List Char) : Bool :=
  match s with
  | '0' :: 'x' :: rest => !rest.isEmpty && rest.all (fun c => isDigitCh c || ('A' ≤ c && c ≤ 'F'))
  | _ => false

/-- Split a character list on a separator character (the semantics of
`str.split`-style splitting used by the PID pattern). -/
def splitOnChar (sep : Char) : List Char → List (List Char)
  | [] => [[]]
  | x :: rest =>
    let r := splitOnChar sep rest
    if x = sep then [] :: r
    else
      match r with
      | h :: t => (x :: h) :: t
      | [] => [[x]]

/-- `re.match(r'^0x[0-9A-F]+(/0x[0-9A-F]+)?$', pid)` from `_is_valid_j1979_pid`. -/
def is_valid_j1979_pid (s : String) : Bool :=
  match splitOnChar '/' s.toList with
  | [a] => j1979HexPart a
  | [a, b] => j1979HexPart a && j1979HexPart b
  | _ => false

/-- Substring occurrence over character lists. -/
def containsSubChars (hay needle : List Char) : Bool :=
  match hay with
  | [] => needle.isEmpty
  | _ :: rest => needle.isPrefixOf hay || containsSubChars rest needle

/-- Substring test (Python `needle in haystack`). -/
def containsSub (hay needle : String) : Bool :=
  containsSubChars hay.toList needle.toList

/-- Python `str.endswith`. -/
def endsWithStr (s suffix : String) : Bool :=
  suffix.toList.isSuffixOf s.toList

/-- Split at the first occurrence of a separator substring. -/
def splitFirstSub : List Char → List Char → Option (List Char × List Char)
  | [], _ => none
  | c :: rest, needle =>
    if needle.isPrefixOf (c :: rest) then some ([], (c :: rest).drop needle.length)
    else
      match splitFirstSub rest needle with
      | some (pre, post) => some (c :: pre, post)
      | none => none

/-- `urlparse` scheme/netloc/path for the `scheme://netloc/path` shape the
URL validators inspect (the source's bare `except` makes them total). -/
def urlParts (url : String) : String × String × String :=
  match splitFirstSub url.toList ("://".toList) with
  | some (schChars, restChars) =>
    (String.mk schChars,
     String.mk (restChars.takeWhile (fun c => c ≠ '/')),
     String.mk (restChars.dropWhile (fun c => c ≠ '/')))
  | none => ("", "", url)

/-- `_is_valid_motive_docs_url`: http(s) scheme, `docs.motive.com` in netloc. -/
def is_valid_motive_docs_url (url : String) : Bool :=
  let (sch, netloc, _) := urlParts url
  (sch = "http" || sch = "https") && containsSub netloc "docs.motive.com"

/-- `_is_valid_vg5_url`: additionally `/vg5/` in the path. -/
def is_valid_vg5_url (url : String) : Bool :=
  let (sch, netloc, path) := urlParts url
  (sch = "http" || sch = "https") && containsSub netloc "docs.motive.com" &&
    containsSub path "/vg5/"

/-- `_is_valid_abbr_url`: additionally `/abbr/` in the path. -/
def is_valid_abbr_url (url : String) : Bool :=
  let (sch, netloc, path) := urlParts url
  (sch = "http" || sch = "https") && containsSub netloc "docs.motive.com" &&
    containsSub path "/abbr/"

/-- `_is_valid_metrics_url`: http(s) scheme, `redash.motive.com` in netloc. -/
def is_valid_metrics_url (url : String) : Bool :=
  let (sch, netloc, _) := urlParts url
  (sch = "http" || sch = "https") && containsSub netloc "redash.motive.com"

/-! ## CustomValidator (`src/validation/custom_validator.py`)

Business-rule errors are modelled as an inductive type carrying exactly
what the source's f-strings interpolate; `renderCustomErr` produces the
message text (name-quoting and the trailing allowed-value enumerations of
the source messages are elided). Checks that call `re.match(...)` or
`.endswith`/`.isdigit` on a non-string value raise in the source; these
sites return `Except.error` here and are caught, as in the source, only at
the stage boundary (`validate_parameters_business_logic`). -/

inductive CustomErr where
  | dupParamId (v : Option Val)
  | dupParamName (v : Option Val)
  | badSnake (disp : String)
  | badReason (disp : String) (reason : Val)
  | badRefSuffix (disp : String)
  | badBreadcrumbUrl (pos : Nat)
  | badVg5Url (pos : Nat)
  | badAbbrValue (pos : Nat) (v : Val)
  | badAbbrLink (pos : Nat)
  | badMetricsLink (pos : Nat)
  | dupGroupId (v : Option Val)
  | dupGroupName (v : Option Val)
  | badStandard (pos : Nat) (std : Val)
  | badProtoAbbr (pos : Nat) (v : Val)
  | badJ1939Pid (pos : Nat)
  | badJ1979Pid (pos : Nat)
  deriving DecidableEq, Repr

/-- Message text for each business-rule error, following the f-strings. -/
def renderCustomErr : CustomErr → String
  | .dupParamId v => "Duplicate parameter ID: " ++ dispOpt v
  | .dupParamName v => "Duplicate parameter field_name: " ++ dispOpt v
  | .badSnake d => "Parameter " ++ d ++ ": protobuf_field must be in snake_case"
  | .badReason d r => "Parameter " ++ d ++ ": invalid reason_added " ++ r.display
  | .badRefSuffix d => "Parameter " ++ d ++ ": protocol_reference must end with _protocols"
  | .badBreadcrumbUrl i => "Breadcrumb " ++ toString i ++ ": invalid URL or not from docs.motive.com domain"
  | .badVg5Url i => "VG5 field " ++ toString i ++ ": invalid URL or not from docs.motive.com/vg5/ path"
  | .badAbbrValue i v => "Abbreviation " ++ toString i ++ ": " ++ v.display ++ " must be 2-6 uppercase letters"
  | .badAbbrLink i => "Abbreviation " ++ toString i ++ ": abbr_link must be from docs.motive.com/abbr/ path"
  | .badMetricsLink i => "Abbreviation " ++ toString i ++ ": metrics_link must be from redash.motive.com domain"
  | .dupGroupId v => "Duplicate protocol group ID: " ++ dispOpt v
  | .dupGroupName v => "Duplicate protocol group name: " ++ dispOpt v
  | .badStandard i s => "Protocol " ++ toString i ++ ": invalid protocol_standard " ++ s.display
  | .badProtoAbbr i v => "Protocol " ++ toString i ++ ": abbreviation " ++ v.display ++ " must be 2-6 uppercase letters"
  | .badJ1939Pid i => "Protocol " ++ toString i ++ ": J1939 pgn_pid should be numeric"
  | .badJ1979Pid i => "Protocol " ++ toString i ++ ": J1979 pgn_pid should be hex format"

/-- `self.valid_protocol_standards`. -/
def valid_protocol_standards : List String := ["J1939", "J1587", "J1979"]

/-- `self.valid_reasons`. -/
def valid_reasons : List String :=
  ["ELD Mandate", "Driver Performance", "Driver Scorecard", "Safety",
   "Engine Insight", "Value add for customer", "Safety_Monitoring"]

/-- Shared shape of the four duplicate checks (`_check_duplicate_*`):
a running `seen` set, first occurrence wins, each later duplicate reported. -/
def dupCheck (key : String) (mk : Option Val → CustomErr) :
    List (Option Val) → List Rec → List CustomErr
  | _, [] => []
  | seen, r :: rest =>
    let v := Rec.get r key
    if v ∈ seen then mk v :: dupCheck key mk seen rest
    else dupCheck key mk (v :: seen) rest

/-- `_check_duplicate_parameter_ids`. -/
def check_duplicate_parameter_ids (l : List Rec) : List CustomErr :=
  dupCheck "id" .dupParamId [] l

/-- `_check_duplicate_parameter_names`. -/
def check_duplicate_parameter_names (l : List Rec) : List CustomErr :=
  dupCheck "field_name" .dupParamName [] l

/-- `_check_duplicate_group_ids`. -/
def check_duplicate_group_ids (l : List Rec) : List CustomErr :=
  dupCheck "id" .dupGroupId [] l

/-- `_check_duplicate_group_names`. -/
def check_duplicate_group_names (l : List Rec) : List CustomErr :=
  dupCheck "group_name" .dupGroupName [] l

/-- Display name used by `_validate_single_parameter`:
`param.get('field_name', f'Parameter {param_num}')` interpolated by `str`. -/
def dispName (p : Rec) (num : Nat) : String :=
  match Rec.get p "field_name" with
  | some v => v.display
  | none => "Parameter " ++ toString num

/-- The protobuf_field check of `_validate_single_parameter`; `re.match`
on a non-string raises `TypeError`. -/
def checkProtobufField (p : Rec) (disp : String) : Except String (List CustomErr) :=
  let pb := p.getD "protobuf_field"
  if pb.truthy then
    match pb with
    | .VStr s => .ok (if is_valid_snake_case s then [] else [.badSnake disp])
    | .VInt _ => .error "TypeError: expected string or bytes-like object"
  else .ok []

/-- The reason_added check of `_validate_single_parameter` (total:
Python `in` membership works on any value). -/
def checkReasonAdded (p : Rec) (disp : String) : List CustomErr :=
  let r := p.getD "reason_added"
  if r.truthy then
    match r with
    | .VStr s => if s ∈ valid_reasons then [] else [.badReason disp (.VStr s)]
    | .VInt n => [.badReason disp (.VInt n)]
  else []

/-- The protocol_reference suffix check of `_validate_single_parameter`;
`.endswith` on a non-string raises `AttributeError`. -/
def checkRefSuffix (p : Rec) (disp : String) : Except String (List CustomErr) :=
  let pr := p.getD "protocol_reference"
  if pr.truthy then
    match pr with
    | .VStr s => .ok (if endsWithStr s "_protocols" then [] else [.badRefSuffix disp])
    | .VInt _ => .error "AttributeError: int object has no attribute endswith"
  else .ok []

/-- `_validate_single_parameter`. -/
def validate_single_parameter (p : Rec) (num : Nat) : Except String (List CustomErr) := do
  let disp := dispName p num
  let e1 ← checkProtobufField p disp
  let e2 := checkReasonAdded p disp
  let e3 ← checkRefSuffix p disp
  pure (e1 ++ e2 ++ e3)

/-- URL validity of a dynamic value: the URL helpers wrap `urlparse` in a
bare `except`, so a non-string value yields `False`, never an exception. -/
def valUrlOk (check : String → Bool) : Val → Bool
  | .VStr s => check s
  | .VInt _ => false

/-- `_validate_breadcrumb_fields` loop, carrying the 0-based enumeration index. -/
def breadcrumbErrsFrom (i : Nat) : List Rec → List CustomErr
  | [] => []
  | b :: rest =>
    let link := b.getD "breadcrumb_link"
    (if link.truthy && !valUrlOk is_valid_motive_docs_url link
     then [.badBreadcrumbUrl (i+1)] else []) ++ breadcrumbErrsFrom (i+1) rest

/-- `_validate_breadcrumb_fields`. -/
def validate_breadcrumb_fields (l : List Rec) : List CustomErr := breadcrumbErrsFrom 0 l

/-- `_validate_vg5_fields` loop. -/
def vg5ErrsFrom (i : Nat) : List Rec → List CustomErr
  | [] => []
  | b :: rest =>
    let link := b.getD "vg5_link"
    (if link.truthy && !valUrlOk is_valid_vg5_url link
     then [.badVg5Url (i+1)] else []) ++ vg5ErrsFrom (i+1) rest

/-- `_validate_vg5_fields`. -/
def validate_vg5_fields (l : List Rec) : List CustomErr := vg5ErrsFrom 0 l

/-- The abbreviation-format check of `_validate_abbr_metrics`: it calls
`re.match` directly, so a non-string abbr_value raises. -/
def checkAbbrValue (a : Rec) (pos : Nat) : Except String (List CustomErr) :=
  let v := a.getD "abbr_value"
  if v.truthy then
    match v with
    | .VStr s => .ok (if is_valid_abbreviation s then [] else [.badAbbrValue pos (.VStr s)])
    | .VInt _ => .error "TypeError: expected string or bytes-like object"
  else .ok []

/-- `_validate_abbr_metrics` loop. -/
def abbrMetricErrsFrom (i : Nat) : List Rec → Except String (List CustomErr)
  | [] => .ok []
  | a :: rest => do
    let e1 ← checkAbbrValue a (i+1)
    let al := a.getD "abbr_link"
    let e2 := if al.truthy && !valUrlOk is_valid_abbr_url al then [CustomErr.badAbbrLink (i+1)] else []
    let ml := a.getD "metrics_link"
    let e3 := if ml.truthy && !valUrlOk is_valid_metrics_url ml then [CustomErr.badMetricsLink (i+1)] else []
    let restE ← abbrMetricErrsFrom (i+1) rest
    pure (e1 ++ e2 ++ e3 ++ restE)

/-- `_validate_abbr_metrics`. -/
def validate_abbr_metrics (l : List Rec) : Except String (List CustomErr) := abbrMetricErrsFrom 0 l

/-- The per-parameter loop of `validate_parameters_business_logic`
(`enumerate`, passing `i + 1`); an exception aborts the loop. -/
def paramLoopFrom (i : Nat) : List Rec → Except String (List CustomErr)
  | [] => .ok []
  | p :: rest => do
    let e ← validate_single_parameter p i
    let r ← paramLoopFrom (i+1) rest
    pure (e ++ r)

/-- The body of `validate_parameters_business_logic` inside its `try`:
the full error accumulation, or the first exception raised. The source's
`if 'parameters' in data:` guards are rendered by `optList`, since every
section is a no-op on the empty list. -/
def paramsBodyErrors (d : ParamsDoc) : Except String (List CustomErr) := do
  let ps := optList d.parameters
  let dups := check_duplicate_parameter_ids ps ++ check_duplicate_parameter_names ps
  let per ← paramLoopFrom 1 ps
  let bc := validate_breadcrumb_fields (optList d.breadcrumb_fields)
  let v5 := validate_vg5_fields (optList d.vg5_fields)
  let ab ← validate_abbr_metrics (optList d.abbr_metrics)
  pure (dups ++ per ++ bc ++ v5 ++ ab)

/-- `validate_parameters_business_logic`: loads the file, runs the body,
and converts any exception (including load failures) into a single
`Custom validation error` message at the stage boundary. -/
def validate_parameters_business_logic (f : SrcFile ParamsDoc) : Bool × List String :=
  match f with
  | .missing => (false, ["Custom validation error: File not found"])
  | .malformed => (false, ["Custom validation error: YAML parse failure"])
  | .parsed d =>
    match paramsBodyErrors d with
    | .ok errs => (errs.isEmpty, if errs.isEmpty then ["Custom validation passed"] else errs.map renderCustomErr)
    | .error e => (false, ["Custom validation error: " ++ e])

/-- Standard membership of a dynamic value (`in` on a list of strings). -/
def stdMember (v : Val) : Bool :=
  match v with
  | .VStr s => s ∈ valid_protocol_standards
  | .VInt _ => false

/-- The abbreviation check of `_validate_single_protocol`. -/
def checkProtoAbbr (p : Rec) (num : Nat) : Except String (List CustomErr) :=
  let ab := p.getD "abbr"
  if ab.truthy then
    match ab with
    | .VStr s => .ok (if is_valid_abbreviation s then [] else [.badProtoAbbr num (.VStr s)])
    | .VInt _ => .error "TypeError: expected string or bytes-like object"
  else .ok []

/-- The standard-conditional PGN/PID format check of
`_validate_single_protocol` (`.isdigit` on an int raises). -/
def checkPgnPid (p : Rec) (num : Nat) : Except String (List CustomErr) :=
  let std := p.getD "protocol_standard"
  if std = .VStr "J1939" then
    let pg := p.getD "pgn_pid"
    if pg.truthy then
      match pg with
      | .VStr s => .ok (if strIsDigit s then [] else [.badJ1939Pid num])
      | .VInt _ => .error "AttributeError: int object has no attribute isdigit"
    else .ok []
  else if std = .VStr "J1979" then
    let pg := p.getD "pgn_pid"
    if pg.truthy then
      match pg with
      | .VStr s => .ok (if is_valid_j1979_pid s then [] else [.badJ1979Pid num])
      | .VInt _ => .error "TypeError: expected string or bytes-like object"
    else .ok []
  else .ok []

/-- `_validate_single_protocol`. -/
def validate_single_protocol (p : Rec) (num : Nat) : Except String (List CustomErr) := do
  let std := p.getD "protocol_standard"
  let e1 := if std.truthy && !stdMember std then [CustomErr.badStandard num std] else []
  let e2 ← checkProtoAbbr p num
  let e3 ← checkPgnPid p num
  pure (e1 ++ e2 ++ e3)

/-- The per-protocol loop of `validate_protocols_business_logic`. -/
def protoLoopFrom (i : Nat) : List Rec → Except String (List CustomErr)
  | [] => .ok []
  | p :: rest => do
    let e ← validate_single_protocol p i
    let r ← protoLoopFrom (i+1) rest
    pure (e ++ r)

/-- The body of `validate_protocols_business_logic` inside its `try`. -/
def protosBodyErrors (d : ProtosDoc) : Except String (List CustomErr) := do
  let gs := optList d.protocol_groups
  let dups := check_duplicate_group_ids gs ++ check_duplicate_group_names gs
  let per ← protoLoopFrom 1 (optList d.protocols)
  pure (dups ++ per)

/-- `validate_protocols_business_logic`. -/
def validate_protocols_business_logic (f : SrcFile ProtosDoc) : Bool × List String :=
  match f with
  | .missing => (false, ["Custom validation error: File not found"])
  | .malformed => (false, ["Custom validation error: YAML parse failure"])
  | .parsed d =>
    match protosBodyErrors d with
    | .ok errs => (errs.isEmpty, if errs.isEmpty then ["Custom validation passed"] else errs.map renderCustomErr)
    | .error e => (false, ["Custom validation error: " ++ e])

/-! ## CrossReferenceValidator (`src/validation/cross_reference_validator.py`)

The body of each check is total on parsed documents (only set/dict
membership is performed on dynamic values), so the stage's `try` only
catches file-load failures. -/

inductive XRefErr where
  | paramBadProtocolRef (fieldNameDisp : String) (protocolRef : Val)
  | groupBadParamRef (groupNameDisp : String) (paramRef : Val)
  | breadcrumbBadRef (pos : Nat) (paramId : Val)
  | vg5BadRef (pos : Nat) (paramId : Val)
  | abbrBadRef (pos : Nat) (paramId : Val)
  | protocolBadRef (pos : Nat) (groupId : Val)
  deriving DecidableEq, Repr

/-- Message text for each cross-reference error. -/
def renderXRefErr : XRefErr → String
  | .paramBadProtocolRef fn pr =>
      "Parameter " ++ fn ++ " references non-existent protocol group " ++ pr.display
  | .groupBadParamRef gn pr =>
      "Protocol group " ++ gn ++ " references non-existent parameter " ++ pr.display
  | .breadcrumbBadRef i v =>
      "Breadcrumb field " ++ toString i ++ " references non-existent parameter ID " ++ v.display
  | .vg5BadRef i v =>
      "VG5 field " ++ toString i ++ " references non-existent parameter ID " ++ v.display
  | .abbrBadRef i v =>
      "Abbreviation metric " ++ toString i ++ " references non-existent parameter ID " ++ v.display
  | .protocolBadRef i v =>
      "Protocol " ++ toString i ++ " references non-existent protocol group ID " ++ v.display

/-- Collect the truthy values of key `k` over a record list (the source
builds a `set`; only membership is ever used, so a list suffices). -/
def truthyVals (k : String) (l : List Rec) : List Val :=
  l.foldl (fun acc r =>
    match Rec.get r k with
    | some v => if v.truthy then acc ++ [v] else acc
    | none => acc) []

/-- Collect the non-`None` values of key `k` over a record list
(`if value is not None: ids.add(value)`). -/
def presentVals (k : String) (l : List Rec) : List Val :=
  l.foldl (fun acc r =>
    match Rec.get r k with
    | some v => acc ++ [v]
    | none => acc) []

/-- `_validate_parameter_to_protocol_refs`. -/
def validate_parameter_to_protocol_refs (pd : ParamsDoc) (qd : ProtosDoc) : List XRefErr :=
  let groupNames := truthyVals "group_name" (optList qd.protocol_groups)
  (optList pd.parameters).foldl (fun acc p =>
    let fn := match Rec.get p "field_name" with
              | some v => v.display
              | none => "Unknown"
    match Rec.get p "protocol_reference" with
    | some pr =>
      if pr.truthy && pr ∉ groupNames then acc ++ [.paramBadProtocolRef fn pr] else acc
    | none => acc) []

/-- `_validate_protocol_to_parameter_refs`. -/
def validate_protocol_to_parameter_refs (pd : ParamsDoc) (qd : ProtosDoc) : List XRefErr :=
  let paramNames := truthyVals "field_name" (optList pd.parameters)
  (optList qd.protocol_groups).foldl (fun acc g =>
    let gn := match Rec.get g "group_name" with
              | some v => v.display
              | none => "Unknown"
    match Rec.get g "parameter_reference" with
    | some pr =>
      if pr.truthy && pr ∉ paramNames then acc ++ [.groupBadParamRef gn pr] else acc
    | none => acc) []

/-- Indexed loop shared by the internal-reference checks: report each
record whose key-`fk` value is present and not in `owners`. -/
def danglingFrom (fk : String) (owners : List Val) (mk : Nat → Val → XRefErr)
    (i : Nat) : List Rec → List XRefErr
  | [] => []
  | r :: rest =>
    (match Rec.get r fk with
     | some v => if v ∉ owners then [mk (i+1) v] else []
     | none => []) ++ danglingFrom fk owners mk (i+1) rest

/-- `_validate_internal_parameter_refs`. -/
def validate_internal_parameter_refs (pd : ParamsDoc) : List XRefErr :=
  let parameterIds := presentVals "id" (optList pd.parameters)
  danglingFrom "parameter_id" parameterIds .breadcrumbBadRef 0 (optList pd.breadcrumb_fields) ++
  danglingFrom "parameter_id" parameterIds .vg5BadRef 0 (optList pd.vg5_fields) ++
  danglingFrom "parameter_id" parameterIds .abbrBadRef 0 (optList pd.abbr_metrics)

/-- `_validate_internal_protocol_refs`. -/
def validate_internal_protocol_refs (qd : ProtosDoc) : List XRefErr :=
  let groupIds := presentVals "id" (optList qd.protocol_groups)
  danglingFrom "group_id" groupIds .protocolBadRef 0 (optList qd.protocols)

/-- The full error accumulation of `validate_cross_references` on parsed
documents. -/
def crossRefErrors (pd : ParamsDoc) (qd : ProtosDoc) : List XRefErr :=
  validate_parameter_to_protocol_refs pd qd ++
  validate_protocol_to_parameter_refs pd qd ++
  validate_internal_parameter_refs pd ++
  validate_internal_protocol_refs qd

/-- `validate_cross_references`: loads both files (the `try` converts load
failures into a single error) and accumulates all four reference checks. -/
def validate_cross_references (pf : SrcFile ParamsDoc) (qf : SrcFile ProtosDoc) :
    Bool × List String :=
  match pf with
  | .missing => (false, ["Cross-reference validation error: File not found"])
  | .malformed => (false, ["Cross-reference validation error: YAML parsing error"])
  | .parsed pd =>
    match qf with
    | .missing => (false, ["Cross-reference validation error: File not found"])
    | .malformed => (false, ["Cross-reference validation error: YAML parsing error"])
    | .parsed qd =>
      let errs := crossRefErrors pd qd
      (errs.isEmpty,
       if errs.isEmpty then ["Cross-reference validation passed"] else errs.map renderXRefErr)

/-! ### Bidirectional consistency

Python dicts are modelled as association lists with insert-overwrites-
value-in-place (iteration order of a dict keeps the first-insertion
position of each key). -/

/-- Dict entries, in iteration order. -/
abbrev Dict := List (Val × Val)

/-- `d[k] = v`: overwrite in place, or append a fresh key. -/
def dictInsert (d : Dict) (k v : Val) : Dict :=
  match d with
  | [] => [(k, v)]
  | (k', v') :: rest => if k' = k then (k, v) :: rest else (k', v') :: dictInsert rest k v

/-- `k in d` / `d[k]` lookup. -/
def dictLookup (d : Dict) (k : Val) : Option Val :=
  match d with
  | [] => none
  | (k', v') :: rest => if k' = k then some v' else dictLookup rest k

/-- One step of map building in `validate_bidirectional_consistency`:
a record contributes an entry only when both its key field and its value
field are truthy. -/
def refMapStep (kf vf : String) : Dict → Rec → Dict := fun d r =>
  match Rec.truthyGet r kf, Rec.truthyGet r vf with
  | some k, some v => dictInsert d k v
  | _, _ => d

/-- Map building in `validate_bidirectional_consistency`. -/
def buildRefMap (kf vf : String) (l : List Rec) : Dict :=
  l.foldl (refMapStep kf vf) []

/-- The parameter-name → protocol-reference map of
`validate_bidirectional_consistency`. -/
def buildParamToProtocol (params : List Rec) : Dict :=
  buildRefMap "field_name" "protocol_reference" params

/-- The group-name → parameter-reference map. -/
def buildProtocolToParam (groups : List Rec) : Dict :=
  buildRefMap "group_name" "parameter_reference" groups

inductive BidirErr where
  | inconsistent (paramName protocolName expectedParam : Val)
  | noGroup (paramName protocolName : Val)
  | groupParamMissing (protocolName paramName : Val)
  | groupParamDifferent (protocolName paramName : Val)
  deriving DecidableEq, Repr

/-- Message text for each bidirectional-consistency error. -/
def renderBidirErr : BidirErr → String
  | .inconsistent pn gn ep =>
      "Bidirectional inconsistency: Parameter " ++ pn.display ++ " references protocol " ++
      gn.display ++ ", but protocol references parameter " ++ ep.display
  | .noGroup pn gn =>
      "Parameter " ++ pn.display ++ " references protocol " ++ gn.display ++
      " but protocol group does not exist"
  | .groupParamMissing gn pn =>
      "Protocol group " ++ gn.display ++ " references parameter " ++ pn.display ++
      " but parameter does not exist"
  | .groupParamDifferent gn pn =>
      "Protocol group " ++ gn.display ++ " references parameter " ++ pn.display ++
      " but parameter references different protocol"

/-- The first loop of the bidirectional check, over
`param_to_protocol.items()`. -/
def bidirForwardErrs (ptp : Dict) : List (Val × Val) → List BidirErr
  | [] => []
  | (paramName, protocolName) :: rest =>
    (match dictLookup ptp protocolName with
     | some expected => if expected ≠ paramName then [.inconsistent paramName protocolName expected] else []
     | none => [.noGroup paramName protocolName]) ++ bidirForwardErrs ptp rest

/-- The orphaned-group loop, over `protocol_to_param.items()`. -/
def bidirOrphanErrs (p2p : Dict) : List (Val × Val) → List BidirErr
  | [] => []
  | (protocolName, paramName) :: rest =>
    (match dictLookup p2p paramName with
     | none => [.groupParamMissing protocolName paramName]
     | some r => if r ≠ protocolName then [.groupParamDifferent protocolName paramName] else []) ++
    bidirOrphanErrs p2p rest

/-- The full error accumulation of `validate_bidirectional_consistency` on
parsed documents. -/
def bidirErrors (pd : ParamsDoc) (qd : ProtosDoc) : List BidirErr :=
  let p2p := buildParamToProtocol (optList pd.parameters)
  let ptp := buildProtocolToParam (optList qd.protocol_groups)
  bidirForwardErrs ptp p2p ++ bidirOrphanErrs p2p ptp

/-- `validate_bidirectional_consistency`. -/
def validate_bidirectional_consistency (pf : SrcFile ParamsDoc) (qf : SrcFile ProtosDoc) :
    Bool × List String :=
  match pf with
  | .missing => (false, ["Bidirectional consistency validation error: File not found"])
  | .malformed => (false, ["Bidirectional consistency validation error: YAML parsing error"])
  | .parsed pd =>
    match qf with
    | .missing => (false, ["Bidirectional consistency validation error: File not found"])
    | .malformed => (false, ["Bidirectional consistency validation error: YAML parsing error"])
    | .parsed qd =>
      let errs := bidirErrors pd qd
      (errs.isEmpty,
       if errs.isEmpty then ["Bidirectional consistency validation passed"]
       else errs.map renderBidirErr)

/-! ## JSONSchemaValidator (`src/validation/json_validator.py`) -/

/-- Key present with a string value. -/
def reqStr (r : Rec) (k : String) : Bool :=
  match Rec.get r k with
  | some (.VStr _) => true
  | _ => false

/-- Key present with an integer value. -/
def reqInt (r : Rec) (k : String) : Bool :=
  match Rec.get r k with
  | some (.VInt _) => true
  | _ => false

/-- Modelled from the spec: the schema files `schemas/parameters_schema.json`
and `schemas/protocols_schema.json` consumed by `JSONSchemaValidator` are
not part of src/; per spec sections 3 and 6 a parameter requires integer
`id`, string `field_name`, integer `reserved_enum_val` and string
`description`, `unit`, `reason_added`, `protobuf_field`,
`protocol_reference`. -/
def schemaParamOk (r : Rec) : Bool :=
  reqInt r "id" && reqStr r "field_name" && reqInt r "reserved_enum_val" &&
  reqStr r "description" && reqStr r "unit" && reqStr r "reason_added" &&
  reqStr r "protobuf_field" && reqStr r "protocol_reference"

/-- Modelled from the spec: a breadcrumb field holds an integer
`parameter_id` foreign key plus its link/text fields. -/
def schemaBreadcrumbOk (r : Rec) : Bool :=
  reqInt r "parameter_id" && reqStr r "breadcrumb_link" && reqStr r "note"

/-- Modelled from the spec: a VG5 field holds an integer `parameter_id`
plus its link field. -/
def schemaVg5Ok (r : Rec) : Bool :=
  reqInt r "parameter_id" && reqStr r "vg5_link"

/-- Modelled from the spec: an abbreviation metric holds an integer
`parameter_id`, an abbreviation code and two link fields. -/
def schemaAbbrOk (r : Rec) : Bool :=
  reqInt r "parameter_id" && reqStr r "abbr_value" && reqStr r "abbr_link" &&
  reqStr r "metrics_link"

/-- Modelled from the spec: a protocol group requires integer `id` and
string `group_name`, `description`, `parameter_reference`. -/
def schemaGroupOk (r : Rec) : Bool :=
  reqInt r "id" && reqStr r "group_name" && reqStr r "description" &&
  reqStr r "parameter_reference"

/-- Modelled from the spec: a protocol entry requires an integer `group_id`
foreign key, an abbreviation and a protocol standard (the remaining
measurement metadata fields are not constrained here). -/
def schemaProtoOk (r : Rec) : Bool :=
  reqInt r "group_id" && reqStr r "abbr" && reqStr r "protocol_standard"

/-- Per-record schema error messages, iterate-all-errors style. -/
def schemaRecErrsFrom (listName : String) (ok : Rec → Bool) (i : Nat) :
    List Rec → List String
  | [] => []
  | r :: rest =>
    (if ok r then [] else [listName ++ " entry " ++ toString i ++ " does not conform to schema"]) ++
    schemaRecErrsFrom listName ok (i+1) rest

/-- Modelled from the spec: full schema check of the parameters document
(all four top-level lists required, every record checked, all violations
collected). -/
def schema_check_parameters (d : ParamsDoc) : Bool × List String :=
  let errs :=
    (match d.parameters with
     | none => ["Parameters validation error at root: parameters is a required property"]
     | some l => schemaRecErrsFrom "parameters" schemaParamOk 0 l) ++
    (match d.breadcrumb_fields with
     | none => ["Parameters validation error at root: breadcrumb_fields is a required property"]
     | some l => schemaRecErrsFrom "breadcrumb_fields" schemaBreadcrumbOk 0 l) ++
    (match d.vg5_fields with
     | none => ["Parameters validation error at root: vg5_fields is a required property"]
     | some l => schemaRecErrsFrom "vg5_fields" schemaVg5Ok 0 l) ++
    (match d.abbr_metrics with
     | none => ["Parameters validation error at root: abbr_metrics is a required property"]
     | some l => schemaRecErrsFrom "abbr_metrics" schemaAbbrOk 0 l)
  (errs.isEmpty, if errs.isEmpty then ["Validation successful"] else errs)

/-- Modelled from the spec: full schema check of the protocols document. -/
def schema_check_protocols (d : ProtosDoc) : Bool × List String :=
  let errs :=
    (match d.protocol_groups with
     | none => ["Protocols validation error at root: protocol_groups is a required property"]
     | some l => schemaRecErrsFrom "protocol_groups" schemaGroupOk 0 l) ++
    (match d.protocols with
     | none => ["Protocols validation error at root: protocols is a required property"]
     | some l => schemaRecErrsFrom "protocols" schemaProtoOk 0 l)
  (errs.isEmpty, if errs.isEmpty then ["Validation successful"] else errs)

/-- `validate_parameters_file`: load failures are caught and reported. -/
def validate_parameters_file (f : SrcFile ParamsDoc) : Bool × List String :=
  match f with
  | .missing => (false, ["File not found"])
  | .malformed => (false, ["YAML parsing error"])
  | .parsed d => schema_check_parameters d

/-- `validate_protocols_file`. -/
def validate_protocols_file (f : SrcFile ProtosDoc) : Bool × List String :=
  match f with
  | .missing => (false, ["File not found"])
  | .malformed => (false, ["YAML parsing error"])
  | .parsed d => schema_check_protocols d

/-! ## MainValidator (`src/validation/main_validator.py`)

The orchestrator is a pure function of the two source files plus the two
wall-clock readings taken at entry and exit (`datetime.now()`), which are
passed in explicitly; `verbose` printing is omitted. -/

/-- One entry of `results['validation_steps']` (`details` keeps the
per-file valid flag and messages). -/
structure StepResult where
  status : Bool
  errors : List String
  warnings : List String
  details : List (String × Bool × List String)
  deriving DecidableEq, Repr

/-- `_run_json_schema_validation`. -/
def run_json_schema_validation (pf : SrcFile ParamsDoc) (qf : SrcFile ProtosDoc) : StepResult :=
  let pr := validate_parameters_file pf
  let qr := validate_protocols_file qf
  { status := pr.1 && qr.1,
    errors := (if !pr.1 then pr.2 else []) ++ (if !qr.1 then qr.2 else []),
    warnings := [],
    details := [("parameters", pr.1, pr.2), ("protocols", qr.1, qr.2)] }

/-- `_run_custom_validation`. -/
def run_custom_validation (pf : SrcFile ParamsDoc) (qf : SrcFile ProtosDoc) : StepResult :=
  let pr := validate_parameters_business_logic pf
  let qr := validate_protocols_business_logic qf
  { status := pr.1 && qr.1,
    errors := (if !pr.1 then pr.2 else []) ++ (if !qr.1 then qr.2 else []),
    warnings := [],
    details := [("parameters_custom", pr.1, pr.2), ("protocols_custom", qr.1, qr.2)] }

/-- `_run_cross_reference_validation`. -/
def run_cross_reference_validation (pf : SrcFile ParamsDoc) (qf : SrcFile ProtosDoc) : StepResult :=
  let cr := validate_cross_references pf qf
  let br := validate_bidirectional_consistency pf qf
  { status := cr.1 && br.1,
    errors := (if !cr.1 then cr.2 else []) ++ (if !br.1 then br.2 else []),
    warnings := [],
    details := [("cross_references", cr.1, cr.2), ("bidirectional_consistency", br.1, br.2)] }

/-- `results['summary']` as produced by `_generate_summary`. -/
structure Summary where
  total_steps : Nat
  passed_steps : Nat
  failed_steps : Nat
  all_passed : Bool
  step_results : List (String × Bool)
  deriving DecidableEq, Repr

/-- `_generate_summary`. -/
def generate_summary (steps : List (String × StepResult)) : Summary :=
  { total_steps := steps.length,
    passed_steps := (steps.filter (fun s => s.2.status)).length,
    failed_steps := (steps.filter (fun s => !s.2.status)).length,
    all_passed := steps.all (fun s => s.2.status),
    step_results := steps.map (fun s => (s.1, s.2.status)) }

/-- The complete validation report. `summary = none` models the initial
empty dict that the early return never replaces, and
`validation_duration_seconds = none` models the key being absent on the
early return. -/
structure Report where
  validation_timestamp : Int
  overall_valid : Bool
  validation_steps : List (String × StepResult)
  summary : Option Summary
  errors : List String
  warnings : List String
  validation_duration_seconds : Option Int
  deriving DecidableEq, Repr

/-- The error-collection loop of `validate_all`: failed steps contribute
their errors, every step contributes its warnings. -/
def collectStepErrors (steps : List (String × StepResult)) : List String :=
  steps.foldl (fun acc s => acc ++ (if s.2.status then [] else s.2.errors)) []

/-- Warning collection of `validate_all`. -/
def collectStepWarnings (steps : List (String × StepResult)) : List String :=
  steps.foldl (fun acc s => acc ++ s.2.warnings) []

/-- The `file_existence` step recorded on the early return. -/
def fileExistenceFailedStep : StepResult :=
  { status := false, errors := ["Required files do not exist"], warnings := [], details := [] }

/-- `validate_all`: the file-existence check short-circuits; otherwise the
three stages always run, the summary is generated, and errors/warnings are
collected. -/
def validate_all (pf : SrcFile ParamsDoc) (qf : SrcFile ProtosDoc)
    (tStart tEnd : Int) : Report :=
  if pf.fileExists && qf.fileExists then
    let steps := [("json_schema", run_json_schema_validation pf qf),
                  ("custom_logic", run_custom_validation pf qf),
                  ("cross_references", run_cross_reference_validation pf qf)]
    let summ := generate_summary steps
    { validation_timestamp := tStart,
      overall_valid := summ.all_passed,
      validation_steps := steps,
      summary := some summ,
      errors := collectStepErrors steps,
      warnings := collectStepWarnings steps,
      validation_duration_seconds := some (tEnd - tStart) }
  else
    { validation_timestamp := tStart,
      overall_valid := false,
      validation_steps := [("file_existence", fileExistenceFailedStep)],
      summary := none,
      errors := ["Required files do not exist"],
      warnings := [],
      validation_duration_seconds := none }

/-- The dict returned by `get_validation_status`. -/
structure QuickStatus where
  overall_valid : Bool
  error_count : Nat
  warning_count : Nat
  validation_timestamp : Int
  duration_seconds : Int
  deriving DecidableEq, Repr

/-- `get_validation_status`: re-runs `validate_all` and reads
`results['validation_duration_seconds']`; an absent key is a `KeyError`. -/
def get_validation_status (pf : SrcFile ParamsDoc) (qf : SrcFile ProtosDoc)
    (tStart tEnd : Int) : Except String QuickStatus :=
  let r := validate_all pf qf tStart tEnd
  match r.validation_duration_seconds with
  | none => .error "KeyError: validation_duration_seconds"
  | some d =>
    .ok { overall_valid := r.overall_valid,
          error_count := r.errors.length,
          warning_count := r.warnings.length,
          validation_timestamp := r.validation_timestamp,
          duration_seconds := d }

/-! ## DatabaseGenerator (`src/generators/database_generator.py`)

The SQLite artifact is modelled as six row lists. Inserts enforce the
declared column constraints (`INTEGER PRIMARY KEY`, `UNIQUE NOT NULL` on
the name columns); foreign keys are declared but, as in SQLite with
`PRAGMA foreign_keys` off, not enforced. Column type affinity conversion
of numeric strings is not modelled; validated documents, the only inputs
this claim set relies on, carry integer ids. An absent `INTEGER PRIMARY
KEY` value is auto-assigned the next rowid. -/

structure ParamRow where
  id : Int
  field_name : Val
  reserved_enum_val : Option Val
  description : Option Val
  unit : Option Val
  reason_added : Option Val
  protobuf_field : Option Val
  protocol_reference : Option Val
  deriving DecidableEq, Repr

structure BcRow where
  id : Int
  parameter_id : Option Val
  breadcrumb_link : Option Val
  note : Option Val
  deriving DecidableEq, Repr

structure Vg5Row where
  id : Int
  parameter_id : Option Val
  vg5_link : Option Val
  deriving DecidableEq, Repr

structure AbbrRow where
  id : Int
  parameter_id : Option Val
  abbr_value : Option Val
  abbr_link : Option Val
  metrics_link : Option Val
  deriving DecidableEq, Repr

structure PgRow where
  id : Int
  group_name : Val
  description : Option Val
  parameter_reference : Option Val
  deriving DecidableEq, Repr

structure ProtoRow where
  id : Int
  group_id : Option Val
  abbr : Option Val
  protocol_standard : Option Val
  pgn_pid : Option Val
  spn : Option Val
  precision : Option Val
  spec_range : Option Val
  max_valid_val : Option Val
  units : Option Val
  description : Option Val
  states : Option Val
  deriving DecidableEq, Repr

structure DB where
  parameters : List ParamRow
  breadcrumb_fields : List BcRow
  vg5_fields : List Vg5Row
  abbr_metrics : List AbbrRow
  protocol_groups : List PgRow
  protocols : List ProtoRow
  deriving DecidableEq, Repr

/-- The `INTEGER PRIMARY KEY` id of a parameters insert: the explicit
integer (unique), or the next rowid when absent; a non-integer value is a
datatype mismatch. -/
def nextParamId (tbl : List ParamRow) (p : Rec) : Except String Int :=
  match Rec.get p "id" with
  | some (.VInt n) =>
    if tbl.any (fun r => r.id = n) then .error "UNIQUE constraint failed: parameters.id"
    else .ok n
  | some (.VStr _) => .error "datatype mismatch"
  | none => .ok ((tbl.map (fun r => r.id)).foldl max 0 + 1)

/-- One `INSERT INTO parameters` of `_insert_parameters_data`. -/
def insertParameter (tbl : List ParamRow) (p : Rec) : Except String (List ParamRow) := do
  let n ← nextParamId tbl p
  match Rec.get p "field_name" with
  | none => Except.error "NOT NULL constraint failed: parameters.field_name"
  | some fn =>
    if tbl.any (fun r => r.field_name = fn) then
      Except.error "UNIQUE constraint failed: parameters.field_name"
    else
      pure (tbl ++ [{ id := n, field_name := fn,
                      reserved_enum_val := Rec.get p "reserved_enum_val",
                      description := Rec.get p "description",
                      unit := Rec.get p "unit",
                      reason_added := Rec.get p "reason_added",
                      protobuf_field := Rec.get p "protobuf_field",
                      protocol_reference := Rec.get p "protocol_reference" }])

/-- The parameters insert loop, in document order. -/
def insertParamList (tbl : List ParamRow) : List Rec → Except String (List ParamRow)
  | [] => .ok tbl
  | p :: rest => do insertParamList (← insertParameter tbl p) rest

/-- The `INTEGER PRIMARY KEY` id of a protocol-groups insert. -/
def nextGroupId (tbl : List PgRow) (g : Rec) : Except String Int :=
  match Rec.get g "id" with
  | some (.VInt n) =>
    if tbl.any (fun r => r.id = n) then .error "UNIQUE constraint failed: protocol_groups.id"
    else .ok n
  | some (.VStr _) => .error "datatype mismatch"
  | none => .ok ((tbl.map (fun r => r.id)).foldl max 0 + 1)

/-- One `INSERT INTO protocol_groups` of `_insert_protocols_data`. -/
def insertProtocolGroup (tbl : List PgRow) (g : Rec) : Except String (List PgRow) := do
  let n ← nextGroupId tbl g
  match Rec.get g "group_name" with
  | none => Except.error "NOT NULL constraint failed: protocol_groups.group_name"
  | some gn =>
    if tbl.any (fun r => r.group_name = gn) then
      Except.error "UNIQUE constraint failed: protocol_groups.group_name"
    else
      pure (tbl ++ [{ id := n, group_name := gn,
                      description := Rec.get g "description",
                      parameter_reference := Rec.get g "parameter_reference" }])

/-- The protocol-groups insert loop. -/
def insertPgList (tbl : List PgRow) : List Rec → Except String (List PgRow)
  | [] => .ok tbl
  | g :: rest => do insertPgList (← insertProtocolGroup tbl g) rest

/-- Breadcrumb inserts: autoincrement id, unchecked foreign key. -/
def insertBcList (tbl : List BcRow) : List Rec → List BcRow
  | [] => tbl
  | b :: rest =>
    insertBcList (tbl ++ [{ id := Int.ofNat tbl.length + 1,
                            parameter_id := Rec.get b "parameter_id",
                            breadcrumb_link := Rec.get b "breadcrumb_link",
                            note := Rec.get b "note" }]) rest

/-- VG5 inserts. -/
def insertVg5List (tbl : List Vg5Row) : List Rec → List Vg5Row
  | [] => tbl
  | b :: rest =>
    insertVg5List (tbl ++ [{ id := Int.ofNat tbl.length + 1,
                             parameter_id := Rec.get b "parameter_id",
                             vg5_link := Rec.get b "vg5_link" }]) rest

/-- Abbreviation-metric inserts. -/
def insertAbbrList (tbl : List AbbrRow) : List Rec → List AbbrRow
  | [] => tbl
  | a :: rest =>
    insertAbbrList (tbl ++ [{ id := Int.ofNat tbl.length + 1,
                              parameter_id := Rec.get a "parameter_id",
                              abbr_value := Rec.get a "abbr_value",
                              abbr_link := Rec.get a "abbr_link",
                              metrics_link := Rec.get a "metrics_link" }]) rest

/-- Protocol-entry inserts. -/
def insertProtoList (tbl : List ProtoRow) : List Rec → List ProtoRow
  | [] => tbl
  | p :: rest =>
    insertProtoList (tbl ++ [{ id := Int.ofNat tbl.length + 1,
                               group_id := Rec.get p "group_id",
                               abbr := Rec.get p "abbr",
                               protocol_standard := Rec.get p "protocol_standard",
                               pgn_pid := Rec.get p "pgn_pid",
                               spn := Rec.get p "spn",
                               precision := Rec.get p "precision",
                               spec_range := Rec.get p "spec_range",
                               max_valid_val := Rec.get p "max_valid_val",
                               units := Rec.get p "units",
                               description := Rec.get p "description",
                               states := Rec.get p "states" }]) rest

/-- `generate_database` on parsed documents: create the six tables and
insert every record from both documents in document order (the file-level
wrapper converts any raised constraint error into `(False, message)`). -/
def generate_database (pd : ParamsDoc) (qd : ProtosDoc) : Except String DB := do
  let params ← insertParamList [] (optList pd.parameters)
  let bcs := insertBcList [] (optList pd.breadcrumb_fields)
  let v5s := insertVg5List [] (optList pd.vg5_fields)
  let abbrs := insertAbbrList [] (optList pd.abbr_metrics)
  let pgs ← insertPgList [] (optList qd.protocol_groups)
  let protos := insertProtoList [] (optList qd.protocols)
  pure { parameters := params, breadcrumb_fields := bcs, vg5_fields := v5s,
         abbr_metrics := abbrs, protocol_groups := pgs, protocols := protos }

/-! ## Concrete example documents used by witnesses and counterexamples -/

/-- An empty parameters document (all top-level keys absent). -/
def emptyParamsDoc : ParamsDoc := ⟨none, none, none, none⟩

/-- An empty protocols document. -/
def emptyProtosDoc : ProtosDoc := ⟨none, none⟩

/-- A fully valid parameter record (spec section 8, Scenario A). -/
def exParam : Rec :=
  [("id", Val.VInt 1), ("field_name", Val.VStr "Engine Speed"),
   ("reserved_enum_val", Val.VInt 5), ("description", Val.VStr "d"),
   ("unit", Val.VStr "rpm"), ("reason_added", Val.VStr "ELD Mandate"),
   ("protobuf_field", Val.VStr "speed_engine_rpm"),
   ("protocol_reference", Val.VStr "ESPD_protocols")]

/-- A fully valid breadcrumb record for `exParam`. -/
def exBreadcrumb : Rec :=
  [("parameter_id", Val.VInt 1),
   ("breadcrumb_link", Val.VStr "https://docs.motive.com/p"),
   ("note", Val.VStr "n")]

/-- A fully valid VG5 record for `exParam`. -/
def exVg5 : Rec :=
  [("parameter_id", Val.VInt 1),
   ("vg5_link", Val.VStr "https://docs.motive.com/vg5/x")]

/-- A fully valid abbreviation-metric record for `exParam`. -/
def exAbbr : Rec :=
  [("parameter_id", Val.VInt 1), ("abbr_value", Val.VStr "ESPD"),
   ("abbr_link", Val.VStr "https://docs.motive.com/abbr/x"),
   ("metrics_link", Val.VStr "https://redash.motive.com/q")]

/-- A fully valid protocol group pointing back at `exParam`. -/
def exGroup : Rec :=
  [("id", Val.VInt 1), ("group_name", Val.VStr "ESPD_protocols"),
   ("description", Val.VStr "d"),
   ("parameter_reference", Val.VStr "Engine Speed")]

/-- A fully valid protocol entry for `exGroup`. -/
def exProto : Rec :=
  [("group_id", Val.VInt 1), ("abbr", Val.VStr "ESPD"),
   ("protocol_standard", Val.VStr "J1939"), ("pgn_pid", Val.VStr "61444")]

/-- The fully valid parameters document. -/
def exParamsDoc : ParamsDoc := ⟨some [exParam], some [exBreadcrumb], some [exVg5], some [exAbbr]⟩

/-- The fully valid protocols document. -/
def exProtosDoc : ProtosDoc := ⟨some [exGroup], some [exProto]⟩

/-! ## C2: pipeline short-circuiting -/

/-- **C2.** For every run of `validate_all` in which both source documents
exist, all three validation stages execute (the report records each
stage's independently computed result) regardless of earlier failures;
when a file is missing, the file-existence check short-circuits: the
remaining stages do not run and the early report is returned immediately. -/
theorem c2_stages_always_run (pf : SrcFile ParamsDoc) (qf : SrcFile ProtosDoc) (t1 t2 : Int) :
    (pf.fileExists = true → qf.fileExists = true →
      (validate_all pf qf t1 t2).validation_steps =
        [("json_schema", run_json_schema_validation pf qf),
         ("custom_logic", run_custom_validation pf qf),
         ("cross_references", run_cross_reference_validation pf qf)]) ∧
    ((pf.fileExists = false ∨ qf.fileExists = false) →
      validate_all pf qf t1 t2 =
        { validation_timestamp := t1, overall_valid := false,
          validation_steps := [("file_existence", fileExistenceFailedStep)],
          summary := none, errors := ["Required files do not exist"],
          warnings := [], validation_duration_seconds := none }) := by
  constructor
  · intro h1 h2
    simp [validate_all, h1, h2]
  · intro h
    unfold validate_all
    rcases h with h | h <;> simp [h]

/-- Witness for C2 at concrete inputs: a present pair runs all three
stages; a missing parameters file short-circuits. -/
theorem c2_stages_always_run_witness :
    (SrcFile.parsed exParamsDoc).fileExists = true ∧
    (SrcFile.parsed exProtosDoc).fileExists = true ∧
    (validate_all (.parsed exParamsDoc) (.parsed exProtosDoc) 0 1).validation_steps =
      [("json_schema", run_json_schema_validation (.parsed exParamsDoc) (.parsed exProtosDoc)),
       ("custom_logic", run_custom_validation (.parsed exParamsDoc) (.parsed exProtosDoc)),
       ("cross_references", run_cross_reference_validation (.parsed exParamsDoc) (.parsed exProtosDoc))] ∧
    (validate_all .missing (.parsed exProtosDoc) 0 1).validation_steps =
      [("file_existence", fileExistenceFailedStep)] :=
  ⟨rfl, rfl,
   (c2_stages_always_run (.parsed exParamsDoc) (.parsed exProtosDoc) 0 1).1 rfl rfl,
   by
     have h := (c2_stages_always_run .missing (.parsed exProtosDoc) 0 1).2 (Or.inl rfl)
     rw [h]⟩

/-! ## C5: the report on missing inputs -/

/-- **C5 (code bug).** The claim says `validate_all` always returns a
completed report containing `validation_duration_seconds`, and that
`get_validation_status` therefore succeeds on every input. When either
source document is missing, the early return leaves
`validation_duration_seconds` unset, so `get_validation_status` raises a
`KeyError` instead of succeeding. -/
theorem c5_missing_file_report_bug :
    (validate_all .missing (.parsed emptyProtosDoc) 0 5).validation_duration_seconds = none ∧
    (validate_all (.parsed emptyParamsDoc) .missing 0 5).validation_duration_seconds = none ∧
    get_validation_status .missing (.parsed emptyProtosDoc) 0 5 =
      .error "KeyError: validation_duration_seconds" :=
  ⟨rfl, rfl, rfl⟩

/-! ## C8: idempotence -/

/-- **C8.** Validation is deterministic and idempotent: two runs of
`validate_all` on the same unchanged pair of documents produce the same
`overall_valid`, the same error list and the same warning list; only the
timestamp and duration inputs can differ between the two reports. -/
theorem c8_validation_idempotent (pf : SrcFile ParamsDoc) (qf : SrcFile ProtosDoc)
    (a b c d : Int) :
    (validate_all pf qf a b).overall_valid = (validate_all pf qf c d).overall_valid ∧
    (validate_all pf qf a b).errors = (validate_all pf qf c d).errors ∧
    (validate_all pf qf a b).warnings = (validate_all pf qf c d).warnings := by
  unfold validate_all
  by_cases h : (pf.fileExists && qf.fileExists) = true <;> simp [h]

/-! ## C9: falsy rule-checked fields are skipped -/

lemma checkProtobufField_falsy (p : Rec) (disp : String)
    (h : Rec.get p "protobuf_field" = none ∨ Rec.get p "protobuf_field" = some (.VStr "")) :
    checkProtobufField p disp = .ok [] := by
  rcases h with h | h <;> (unfold checkProtobufField Rec.getD; rw [h]) <;> rfl

lemma checkReasonAdded_falsy (p : Rec) (disp : String)
    (h : Rec.get p "reason_added" = none ∨ Rec.get p "reason_added" = some (.VStr "")) :
    checkReasonAdded p disp = [] := by
  rcases h with h | h <;> (unfold checkReasonAdded Rec.getD; rw [h]) <;> rfl

lemma checkRefSuffix_falsy (p : Rec) (disp : String)
    (h : Rec.get p "protocol_reference" = none ∨ Rec.get p "protocol_reference" = some (.VStr "")) :
    checkRefSuffix p disp = .ok [] := by
  rcases h with h | h <;> (unfold checkRefSuffix Rec.getD; rw [h]) <;> rfl

lemma mem_checkProtobufField_ok (p : Rec) (disp : String) (errs : List CustomErr)
    (h : checkProtobufField p disp = .ok errs) :
    ∀ e ∈ errs, e = CustomErr.badSnake disp := by
  simp only [checkProtobufField] at h
  split at h
  · split at h
    · split at h <;> (cases h; simp)
    · cases h
  · cases h; simp

lemma mem_checkReasonAdded (p : Rec) (disp : String) :
    ∀ e ∈ checkReasonAdded p disp, ∃ r, e = CustomErr.badReason disp r := by
  simp only [checkReasonAdded]
  split
  · split
    · split <;> simp
    · simp
  · simp

lemma mem_checkRefSuffix_ok (p : Rec) (disp : String) (errs : List CustomErr)
    (h : checkRefSuffix p disp = .ok errs) :
    ∀ e ∈ errs, e = CustomErr.badRefSuffix disp := by
  simp only [checkRefSuffix] at h
  split at h
  · split at h
    · split at h <;> (cases h; simp)
    · cases h
  · cases h; simp

/-- Decomposition of a successful `_validate_single_parameter` run into its
three checks. -/
lemma validate_single_parameter_ok (p : Rec) (num : Nat) (errs : List CustomErr)
    (h : validate_single_parameter p num = .ok errs) :
    ∃ e1 e3, checkProtobufField p (dispName p num) = .ok e1 ∧
      checkRefSuffix p (dispName p num) = .ok e3 ∧
      errs = e1 ++ checkReasonAdded p (dispName p num) ++ e3 := by
  simp only [validate_single_parameter] at h
  cases hc1 : checkProtobufField p (dispName p num) with
  | error e => rw [hc1] at h; simp [Bind.bind, Except.bind] at h
  | ok e1 =>
    rw [hc1] at h
    cases hc3 : checkRefSuffix p (dispName p num) with
    | error e => rw [hc3] at h; simp [Bind.bind, Except.bind] at h
    | ok e3 =>
      rw [hc3] at h
      simp [Bind.bind, Except.bind, Pure.pure, Except.pure] at h
      exact ⟨e1, e3, rfl, rfl, by rw [List.append_assoc]; exact h.symm⟩

/-- **C9.** In `_validate_single_parameter` each format, enumeration and
suffix check is skipped when the corresponding field is absent or the
empty string: no error for that field is ever produced, and a parameter
with all three rule-checked fields absent/empty produces no errors at
all. -/
theorem c9_falsy_fields_skipped (p : Rec) (num : Nat) :
    ((Rec.get p "protobuf_field" = none ∨ Rec.get p "protobuf_field" = some (.VStr "")) →
      ∀ errs, validate_single_parameter p num = .ok errs →
        ∀ d, CustomErr.badSnake d ∉ errs) ∧
    ((Rec.get p "reason_added" = none ∨ Rec.get p "reason_added" = some (.VStr "")) →
      ∀ errs, validate_single_parameter p num = .ok errs →
        ∀ d r, CustomErr.badReason d r ∉ errs) ∧
    ((Rec.get p "protocol_reference" = none ∨ Rec.get p "protocol_reference" = some (.VStr "")) →
      ∀ errs, validate_single_parameter p num = .ok errs →
        ∀ d, CustomErr.badRefSuffix d ∉ errs) ∧
    (((Rec.get p "protobuf_field" = none ∨ Rec.get p "protobuf_field" = some (.VStr "")) ∧
      (Rec.get p "reason_added" = none ∨ Rec.get p "reason_added" = some (.VStr "")) ∧
      (Rec.get p "protocol_reference" = none ∨ Rec.get p "protocol_reference" = some (.VStr ""))) →
      validate_single_parameter p num = .ok []) := by
  refine ⟨?_, ?_, ?_, ?_⟩
  · intro hf errs hok d hmem
    obtain ⟨e1, e3, h1, h3, heq⟩ := validate_single_parameter_ok p num errs hok
    rw [checkProtobufField_falsy p _ hf] at h1
    cases h1
    subst heq
    rcases List.mem_append.1 hmem with hm | hm
    · rcases List.mem_append.1 hm with hm | hm
      · simp at hm
      · obtain ⟨r, hr⟩ := mem_checkReasonAdded p _ _ hm
        simp at hr
    · have := mem_checkRefSuffix_ok p _ _ h3 _ hm
      simp at this
  · intro hf errs hok d r hmem
    obtain ⟨e1, e3, h1, h3, heq⟩ := validate_single_parameter_ok p num errs hok
    subst heq
    rcases List.mem_append.1 hmem with hm | hm
    · rcases List.mem_append.1 hm with hm | hm
      · have := mem_checkProtobufField_ok p _ _ h1 _ hm
        simp at this
      · rw [checkReasonAdded_falsy p _ hf] at hm
        simp at hm
    · have := mem_checkRefSuffix_ok p _ _ h3 _ hm
      simp at this
  · intro hf errs hok d hmem
    obtain ⟨e1, e3, h1, h3, heq⟩ := validate_single_parameter_ok p num errs hok
    rw [checkRefSuffix_falsy p _ hf] at h3
    cases h3
    subst heq
    rcases List.mem_append.1 hmem with hm | hm
    · rcases List.mem_append.1 hm with hm | hm
      · have := mem_checkProtobufField_ok p _ _ h1 _ hm
        simp at this
      · obtain ⟨r, hr⟩ := mem_checkReasonAdded p _ _ hm
        simp at hr
    · simp at hm
  · rintro ⟨h1, h2, h3⟩
    simp only [validate_single_parameter]
    rw [checkProtobufField_falsy p _ h1, checkRefSuffix_falsy p _ h3,
        checkReasonAdded_falsy p _ h2]
    rfl

/-- Witness for C9: a record with none of the three rule-checked fields
passes `_validate_single_parameter` with no errors. -/
theorem c9_falsy_fields_skipped_witness :
    Rec.get [("id", Val.VInt 7)] "protobuf_field" = none ∧
    Rec.get [("id", Val.VInt 7)] "reason_added" = none ∧
    Rec.get [("id", Val.VInt 7)] "protocol_reference" = none ∧
    validate_single_parameter [("id", Val.VInt 7)] 1 = .ok [] :=
  ⟨rfl, rfl, rfl,
   (c9_falsy_fields_skipped [("id", Val.VInt 7)] 1).2.2.2
     ⟨Or.inl rfl, Or.inl rfl, Or.inl rfl⟩⟩

/-! ## C6: dangling foreign keys -/

lemma presentVals_go (k : String) (l : List Rec) :
    ∀ (acc : List Val) (v : Val),
      (v ∈ l.foldl (fun acc r =>
          match Rec.get r k with
          | some w => acc ++ [w]
          | none => acc) acc) ↔
      (v ∈ acc ∨ ∃ r ∈ l, Rec.get r k = some v) := by
  induction l with
  | nil => simp
  | cons r rest ih =>
    intro acc v
    simp only [List.foldl_cons]
    cases hr : Rec.get r k with
    | none =>
      rw [ih]
      constructor
      · rintro (h | ⟨r', hr', hv⟩)
        · exact Or.inl h
        · exact Or.inr ⟨r', List.mem_cons_of_mem r hr', hv⟩
      · rintro (h | ⟨r', hr', hv⟩)
        · exact Or.inl h
        · rcases List.mem_cons.1 hr' with heq | hmem
          · subst heq; rw [hr] at hv; cases hv
          · exact Or.inr ⟨r', hmem, hv⟩
    | some w =>
      rw [ih]
      constructor
      · rintro (hacc | ⟨r', hr', hv⟩)
        · rcases List.mem_append.1 hacc with h | h
          · exact Or.inl h
          · have hvw : v = w := List.mem_singleton.1 h
            exact Or.inr ⟨r, List.mem_cons_self r rest, by rw [hr, hvw]⟩
        · exact Or.inr ⟨r', List.mem_cons_of_mem r hr', hv⟩
      · rintro (hacc | ⟨r', hr', hv⟩)
        · exact Or.inl (List.mem_append.2 (Or.inl hacc))
        · rcases List.mem_cons.1 hr' with heq | hmem
          · subst heq
            rw [hr] at hv
            injection hv with hv
            exact Or.inl (List.mem_append.2 (Or.inr (List.mem_singleton.2 hv.symm)))
          · exact Or.inr ⟨r', hmem, hv⟩

/-- Membership in the owning-id set built by the internal-reference
checks. -/
lemma presentVals_mem (k : String) (l : List Rec) (v : Val) :
    v ∈ presentVals k l ↔ ∃ r ∈ l, Rec.get r k = some v := by
  unfold presentVals
  rw [presentVals_go]
  simp

/-- A record at position `j` with a present, dangling foreign key
produces exactly the indexed error. -/
lemma danglingFrom_mem (fk : String) (owners : List Val) (mk : Nat → Val → XRefErr) :
    ∀ (l : List Rec) (i j : Nat) (r : Rec) (v : Val),
      l.get? j = some r → Rec.get r fk = some v → v ∉ owners →
      mk (i + j + 1) v ∈ danglingFrom fk owners mk i l := by
  intro l
  induction l with
  | nil => intro i j r v h; simp at h
  | cons b rest ih =>
    intro i j r v hj hv hno
    cases j with
    | zero =>
      have hb : b = r := by simpa using hj
      subst hb
      simp only [danglingFrom, hv, List.mem_append]
      left
      simp [hno]
    | succ j' =>
      have hj' : rest.get? j' = some r := by simpa using hj
      have := ih (i+1) j' r v hj' hv hno
      have harith : i + 1 + j' + 1 = i + (j' + 1) + 1 := by omega
      rw [harith] at this
      simp only [danglingFrom, List.mem_append]
      right
      exact this

/-- A cross-reference error makes the whole check invalid and its message
appears in the output. -/
lemma crossRefErrors_reported (pd : ParamsDoc) (qd : ProtosDoc) (e : XRefErr)
    (h : e ∈ crossRefErrors pd qd) :
    (validate_cross_references (.parsed pd) (.parsed qd)).1 = false ∧
    renderXRefErr e ∈ (validate_cross_references (.parsed pd) (.parsed qd)).2 := by
  have hemp : (crossRefErrors pd qd).isEmpty = false := by
    cases hl : crossRefErrors pd qd with
    | nil => rw [hl] at h; cases h
    | cons a l => rfl
  constructor
  · simp [validate_cross_references, hemp]
  · simp [validate_cross_references, hemp]
    exact ⟨e, h, rfl⟩

/-- **C6.** Every dependent record (breadcrumb, VG5, abbreviation metric
or protocol entry) whose foreign key does not match the id of any owning
record makes cross-reference validation invalid, with a reported error
naming the record's 1-based position and the dangling id. -/
theorem c6_dangling_foreign_keys_reported :
    (∀ (pd : ParamsDoc) (qd : ProtosDoc) (bcs : List Rec) (j : Nat) (b : Rec) (v : Val),
      pd.breadcrumb_fields = some bcs → bcs.get? j = some b →
      Rec.get b "parameter_id" = some v →
      (∀ p ∈ optList pd.parameters, Rec.get p "id" ≠ some v) →
      (validate_cross_references (.parsed pd) (.parsed qd)).1 = false ∧
      renderXRefErr (.breadcrumbBadRef (j+1) v) ∈
        (validate_cross_references (.parsed pd) (.parsed qd)).2) ∧
    (∀ (pd : ParamsDoc) (qd : ProtosDoc) (vgs : List Rec) (j : Nat) (b : Rec) (v : Val),
      pd.vg5_fields = some vgs → vgs.get? j = some b →
      Rec.get b "parameter_id" = some v →
      (∀ p ∈ optList pd.parameters, Rec.get p "id" ≠ some v) →
      (validate_cross_references (.parsed pd) (.parsed qd)).1 = false ∧
      renderXRefErr (.vg5BadRef (j+1) v) ∈
        (validate_cross_references (.parsed pd) (.parsed qd)).2) ∧
    (∀ (pd : ParamsDoc) (qd : ProtosDoc) (abs : List Rec) (j : Nat) (b : Rec) (v : Val),
      pd.abbr_metrics = some abs → abs.get? j = some b →
      Rec.get b "parameter_id" = some v →
      (∀ p ∈ optList pd.parameters, Rec.get p "id" ≠ some v) →
      (validate_cross_references (.parsed pd) (.parsed qd)).1 = false ∧
      renderXRefErr (.abbrBadRef (j+1) v) ∈
        (validate_cross_references (.parsed pd) (.parsed qd)).2) ∧
    (∀ (pd : ParamsDoc) (qd : ProtosDoc) (ps : List Rec) (j : Nat) (r : Rec) (v : Val),
      qd.protocols = some ps → ps.get? j = some r →
      Rec.get r "group_id" = some v →
      (∀ g ∈ optList qd.protocol_groups, Rec.get g "id" ≠ some v) →
      (validate_cross_references (.parsed pd) (.parsed qd)).1 = false ∧
      renderXRefErr (.protocolBadRef (j+1) v) ∈
        (validate_cross_references (.parsed pd) (.parsed qd)).2) := by
  refine ⟨?_, ?_, ?_, ?_⟩
  · intro pd qd bcs j b v hlist hj hv hno
    have hvno : v ∉ presentVals "id" (optList pd.parameters) := by
      rw [presentVals_mem]
      rintro ⟨p, hp, hpv⟩
      exact hno p hp hpv
    have hdm := danglingFrom_mem "parameter_id" _ .breadcrumbBadRef bcs 0 j b v hj hv hvno
    have harith : 0 + j + 1 = j + 1 := by omega
    rw [harith] at hdm
    have hin : XRefErr.breadcrumbBadRef (j+1) v ∈ crossRefErrors pd qd := by
      unfold crossRefErrors validate_internal_parameter_refs
      have hopt : optList pd.breadcrumb_fields = bcs := by rw [hlist]; rfl
      rw [hopt]
      simp only [List.mem_append]
      tauto
    exact crossRefErrors_reported pd qd _ hin
  · intro pd qd vgs j b v hlist hj hv hno
    have hvno : v ∉ presentVals "id" (optList pd.parameters) := by
      rw [presentVals_mem]
      rintro ⟨p, hp, hpv⟩
      exact hno p hp hpv
    have hdm := danglingFrom_mem "parameter_id" _ .vg5BadRef vgs 0 j b v hj hv hvno
    have harith : 0 + j + 1 = j + 1 := by omega
    rw [harith] at hdm
    have hin : XRefErr.vg5BadRef (j+1) v ∈ crossRefErrors pd qd := by
      unfold crossRefErrors validate_internal_parameter_refs
      have hopt : optList pd.vg5_fields = vgs := by rw [hlist]; rfl
      rw [hopt]
      simp only [List.mem_append]
      tauto
    exact crossRefErrors_reported pd qd _ hin
  · intro pd qd abs j b v hlist hj hv hno
    have hvno : v ∉ presentVals "id" (optList pd.parameters) := by
      rw [presentVals_mem]
      rintro ⟨p, hp, hpv⟩
      exact hno p hp hpv
    have hdm := danglingFrom_mem "parameter_id" _ .abbrBadRef abs 0 j b v hj hv hvno
    have harith : 0 + j + 1 = j + 1 := by omega
    rw [harith] at hdm
    have hin : XRefErr.abbrBadRef (j+1) v ∈ crossRefErrors pd qd := by
      unfold crossRefErrors validate_internal_parameter_refs
      have hopt : optList pd.abbr_metrics = abs := by rw [hlist]; rfl
      rw [hopt]
      simp only [List.mem_append]
      tauto
    exact crossRefErrors_reported pd qd _ hin
  · intro pd qd ps j r v hlist hj hv hno
    have hvno : v ∉ presentVals "id" (optList qd.protocol_groups) := by
      rw [presentVals_mem]
      rintro ⟨g, hg, hgv⟩
      exact hno g hg hgv
    have hdm := danglingFrom_mem "group_id" _ .protocolBadRef ps 0 j r v hj hv hvno
    have harith : 0 + j + 1 = j + 1 := by omega
    rw [harith] at hdm
    have hin : XRefErr.protocolBadRef (j+1) v ∈ crossRefErrors pd qd := by
      unfold crossRefErrors validate_internal_protocol_refs
      have hopt : optList qd.protocols = ps := by rw [hlist]; rfl
      rw [hopt]
      simp only [List.mem_append]
      tauto
    exact crossRefErrors_reported pd qd _ hin

/-- A breadcrumb/VG5/abbr record with a dangling `parameter_id: 99`. -/
def danglingDep : Rec := [("parameter_id", Val.VInt 99)]

/-- A protocol entry with a dangling `group_id: 99`. -/
def danglingProto : Rec := [("group_id", Val.VInt 99)]

/-- Parameters document whose dependent records all dangle. -/
def danglingParamsDoc : ParamsDoc :=
  ⟨some [exParam], some [danglingDep], some [danglingDep], some [danglingDep]⟩

/-- Protocols document whose protocol entry dangles. -/
def danglingProtosDoc : ProtosDoc := ⟨some [exGroup], some [danglingProto]⟩

/-- Witness for C6 (spec section 8, Scenario D): a breadcrumb with
`parameter_id: 99` where no parameter has id 99, and likewise for the
other three dependent-record kinds. -/
theorem c6_dangling_foreign_keys_reported_witness :
    (validate_cross_references (.parsed danglingParamsDoc) (.parsed danglingProtosDoc)).1 = false ∧
    "Breadcrumb field 1 references non-existent parameter ID 99" ∈
      (validate_cross_references (.parsed danglingParamsDoc) (.parsed danglingProtosDoc)).2 ∧
    "VG5 field 1 references non-existent parameter ID 99" ∈
      (validate_cross_references (.parsed danglingParamsDoc) (.parsed danglingProtosDoc)).2 ∧
    "Protocol 1 references non-existent protocol group ID 99" ∈
      (validate_cross_references (.parsed danglingParamsDoc) (.parsed danglingProtosDoc)).2 := by
  refine ⟨?_, ?_, ?_, ?_⟩
  · exact ((c6_dangling_foreign_keys_reported).1 danglingParamsDoc danglingProtosDoc
      [danglingDep] 0 danglingDep (Val.VInt 99) rfl rfl rfl (by decide)).1
  · exact ((c6_dangling_foreign_keys_reported).1 danglingParamsDoc danglingProtosDoc
      [danglingDep] 0 danglingDep (Val.VInt 99) rfl rfl rfl (by decide)).2
  · exact ((c6_dangling_foreign_keys_reported).2.1 danglingParamsDoc danglingProtosDoc
      [danglingDep] 0 danglingDep (Val.VInt 99) rfl rfl rfl (by decide)).2
  · exact ((c6_dangling_foreign_keys_reported).2.2.2 danglingParamsDoc danglingProtosDoc
      [danglingProto] 0 danglingProto (Val.VInt 99) rfl rfl rfl (by decide)).2

/-! ## C3: duplicate detection -/

/-- Error count of one duplicate check: with the running set `seen`, a
value already seen errors on every occurrence, otherwise on every
occurrence after the first. -/
lemma dupCheck_count (key : String) (mk : Option Val → CustomErr)
    (hinj : ∀ a b : Option Val, mk a = mk b → a = b) (ov : Option Val) :
    ∀ (l : List Rec) (seen : List (Option Val)),
      (dupCheck key mk seen l).count (mk ov) =
        (if ov ∈ seen then (l.map (fun r => Rec.get r key)).count ov
         else (l.map (fun r => Rec.get r key)).count ov - 1) := by
  intro l
  induction l with
  | nil => intro seen; simp [dupCheck]
  | cons r rest ih =>
    intro seen
    by_cases hvs : Rec.get r key ∈ seen
    · rw [show dupCheck key mk seen (r :: rest) =
            mk (Rec.get r key) :: dupCheck key mk seen rest from by
          simp [dupCheck, hvs]]
      by_cases hvo : Rec.get r key = ov
      · subst hvo
        simp [List.count_cons, ih, hvs]
      · have hmk : ¬ (mk ov = mk (Rec.get r key)) := fun hc => hvo (hinj _ _ hc.symm)
        have hvo2 : ¬ (ov = Rec.get r key) := fun hc => hvo hc.symm
        by_cases hos : ov ∈ seen <;>
          simp [List.count_cons, ih, hos, hmk, hvo2]
    · rw [show dupCheck key mk seen (r :: rest) =
            dupCheck key mk (Rec.get r key :: seen) rest from by
          simp [dupCheck, hvs]]
      rw [ih]
      by_cases hvo : Rec.get r key = ov
      · subst hvo
        simp [hvs, List.count_cons]
      · have hvo2 : ¬ (ov = Rec.get r key) := fun hc => hvo hc.symm
        by_cases hos : ov ∈ seen <;>
          simp [hos, List.count_cons, hvo2, List.mem_cons]

/-- Two equal entries at distinct positions give count at least 2. -/
lemma two_le_count_of_get? {α : Type} [BEq α] [LawfulBEq α] (l : List α) (i j : Nat) (x : α)
    (hij : i < j) (hi : l.get? i = some x) (hj : l.get? j = some x) : 2 ≤ l.count x := by
  have hx1 : x ∈ l.take j := by
    have : (l.take j).get? i = some x := by
      rw [List.get?_take hij]
      exact hi
    exact List.get?_mem this
  have hx2 : x ∈ l.drop j := by
    have : (l.drop j).get? 0 = some x := by
      rw [List.get?_drop]
      simpa using hj
    exact List.get?_mem this
  have h1 : 1 ≤ (l.take j).count x := List.count_pos_iff_mem.2 hx1
  have h2 : 1 ≤ (l.drop j).count x := List.count_pos_iff_mem.2 hx2
  calc 2 ≤ (l.take j).count x + (l.drop j).count x := by omega
    _ = (l.take j ++ l.drop j).count x := (List.count_append _ _ _).symm
    _ = l.count x := by rw [List.take_append_drop]

/-- Errors of the per-parameter loop are only format/enum/suffix errors. -/
lemma mem_paramLoopFrom (ps : List Rec) :
    ∀ (i : Nat) (per : List CustomErr), paramLoopFrom i ps = .ok per →
      ∀ e ∈ per, (∃ d, e = CustomErr.badSnake d) ∨ (∃ d r, e = CustomErr.badReason d r) ∨
        (∃ d, e = CustomErr.badRefSuffix d) := by
  induction ps with
  | nil =>
    intro i per h
    cases h
    intro e he
    cases he
  | cons p rest ih =>
    intro i per h e he
    simp only [paramLoopFrom] at h
    cases h1 : validate_single_parameter p i with
    | error msg => rw [h1] at h; simp [Bind.bind, Except.bind] at h
    | ok e1 =>
      rw [h1] at h
      cases h2 : paramLoopFrom (i+1) rest with
      | error msg => rw [h2] at h; simp [Bind.bind, Except.bind] at h
      | ok r2 =>
        rw [h2] at h
        simp [Bind.bind, Except.bind, Pure.pure, Except.pure] at h
        subst h
        rcases List.mem_append.1 he with hm | hm
        · obtain ⟨a1, a3, hc1, hc3, heq⟩ := validate_single_parameter_ok p i e1 h1
          subst heq
          rcases List.mem_append.1 hm with hm2 | hm2
          · rcases List.mem_append.1 hm2 with hm3 | hm3
            · exact Or.inl ⟨_, mem_checkProtobufField_ok p _ _ hc1 _ hm3⟩
            · obtain ⟨r, hr⟩ := mem_checkReasonAdded p _ _ hm3
              exact Or.inr (Or.inl ⟨_, _, hr⟩)
          · exact Or.inr (Or.inr ⟨_, mem_checkRefSuffix_ok p _ _ hc3 _ hm2⟩)
        · exact ih (i+1) r2 h2 e hm

/-- Errors of the breadcrumb loop are only URL errors. -/
lemma mem_breadcrumbErrsFrom (l : List Rec) :
    ∀ (i : Nat), ∀ e ∈ breadcrumbErrsFrom i l, ∃ j, e = CustomErr.badBreadcrumbUrl j := by
  induction l with
  | nil => intro i e he; cases he
  | cons b rest ih =>
    intro i e he
    simp only [breadcrumbErrsFrom] at he
    rcases List.mem_append.1 he with hm | hm
    · split at hm
      · exact ⟨i+1, List.mem_singleton.1 hm⟩
      · cases hm
    · exact ih (i+1) e hm

/-- Errors of the VG5 loop are only URL errors. -/
lemma mem_vg5ErrsFrom (l : List Rec) :
    ∀ (i : Nat), ∀ e ∈ vg5ErrsFrom i l, ∃ j, e = CustomErr.badVg5Url j := by
  induction l with
  | nil => intro i e he; cases he
  | cons b rest ih =>
    intro i e he
    simp only [vg5ErrsFrom] at he
    rcases List.mem_append.1 he with hm | hm
    · split at hm
      · exact ⟨i+1, List.mem_singleton.1 hm⟩
      · cases hm
    · exact ih (i+1) e hm

/-- Errors of the abbreviation-metric loop are only value/link errors. -/
lemma mem_abbrMetricErrsFrom (l : List Rec) :
    ∀ (i : Nat) (ab : List CustomErr), abbrMetricErrsFrom i l = .ok ab →
      ∀ e ∈ ab, (∃ j v, e = CustomErr.badAbbrValue j v) ∨ (∃ j, e = CustomErr.badAbbrLink j) ∨
        (∃ j, e = CustomErr.badMetricsLink j) := by
  induction l with
  | nil =>
    intro i ab h
    cases h
    intro e he
    cases he
  | cons a rest ih =>
    intro i ab h e he
    simp only [abbrMetricErrsFrom] at h
    cases h1 : checkAbbrValue a (i+1) with
    | error msg => rw [h1] at h; simp [Bind.bind, Except.bind] at h
    | ok e1 =>
      rw [h1] at h
      cases h2 : abbrMetricErrsFrom (i+1) rest with
      | error msg => rw [h2] at h; simp [Bind.bind, Except.bind] at h
      | ok r2 =>
        rw [h2] at h
        simp [Bind.bind, Except.bind, Pure.pure, Except.pure] at h
        subst h
        have he1 : ∀ x ∈ e1, ∃ v, x = CustomErr.badAbbrValue (i+1) v := by
          intro x hx
          simp only [checkAbbrValue] at h1
          split at h1
          · split at h1
            · cases h1
              split at hx
              · cases hx
              · exact ⟨_, List.mem_singleton.1 hx⟩
            · cases h1
          · cases h1
            cases hx
        rcases List.mem_append.1 he with hm | hm
        · obtain ⟨v, hv⟩ := he1 e hm
          exact Or.inl ⟨_, _, hv⟩
        · rcases List.mem_append.1 hm with hm2 | hm2
          · split at hm2
            · exact Or.inr (Or.inl ⟨_, List.mem_singleton.1 hm2⟩)
            · cases hm2
          · rcases List.mem_append.1 hm2 with hm3 | hm3
            · split at hm3
              · exact Or.inr (Or.inr ⟨_, List.mem_singleton.1 hm3⟩)
              · cases hm3
            · exact ih (i+1) r2 h2 e hm3

lemma mem_checkProtoAbbr_ok (p : Rec) (num : Nat) (errs : List CustomErr)
    (h : checkProtoAbbr p num = .ok errs) :
    ∀ e ∈ errs, ∃ v, e = CustomErr.badProtoAbbr num v := by
  intro e he
  simp only [checkProtoAbbr] at h
  split at h
  · split at h
    · cases h
      split at he
      · cases he
      · exact ⟨_, List.mem_singleton.1 he⟩
    · cases h
  · cases h
    cases he

lemma mem_checkPgnPid_ok (p : Rec) (num : Nat) (errs : List CustomErr)
    (h : checkPgnPid p num = .ok errs) :
    ∀ e ∈ errs, e = CustomErr.badJ1939Pid num ∨ e = CustomErr.badJ1979Pid num := by
  intro e he
  simp only [checkPgnPid] at h
  split at h
  · split at h
    · split at h
      · cases h
        split at he
        · cases he
        · exact Or.inl (List.mem_singleton.1 he)
      · cases h
    · cases h
      cases he
  · split at h
    · split at h
      · split at h
        · cases h
          split at he
          · cases he
          · exact Or.inr (List.mem_singleton.1 he)
        · cases h
      · cases h
        cases he
    · cases h
      cases he

/-- Decomposition of a successful `_validate_single_protocol` run. -/
lemma validate_single_protocol_ok (p : Rec) (num : Nat) (errs : List CustomErr)
    (h : validate_single_protocol p num = .ok errs) :
    ∃ e2 e3, checkProtoAbbr p num = .ok e2 ∧ checkPgnPid p num = .ok e3 ∧
      errs = (if (p.getD "protocol_standard").truthy && !stdMember (p.getD "protocol_standard")
              then [CustomErr.badStandard num (p.getD "protocol_standard")] else []) ++
             e2 ++ e3 := by
  simp only [validate_single_protocol] at h
  cases h2 : checkProtoAbbr p num with
  | error e => rw [h2] at h; simp [Bind.bind, Except.bind] at h
  | ok e2 =>
    rw [h2] at h
    cases h3 : checkPgnPid p num with
    | error e => rw [h3] at h; simp [Bind.bind, Except.bind] at h
    | ok e3 =>
      rw [h3] at h
      simp only [Bind.bind, Except.bind, Pure.pure, Except.pure, Except.ok.injEq] at h
      exact ⟨e2, e3, rfl, rfl, h.symm⟩

/-- Errors of the per-protocol loop are only standard/abbreviation/PID
errors. -/
lemma mem_protoLoopFrom (ps : List Rec) :
    ∀ (i : Nat) (per : List CustomErr), protoLoopFrom i ps = .ok per →
      ∀ e ∈ per, (∃ j s, e = CustomErr.badStandard j s) ∨
        (∃ j v, e = CustomErr.badProtoAbbr j v) ∨
        (∃ j, e = CustomErr.badJ1939Pid j) ∨ (∃ j, e = CustomErr.badJ1979Pid j) := by
  induction ps with
  | nil =>
    intro i per h
    cases h
    intro e he
    cases he
  | cons p rest ih =>
    intro i per h e he
    simp only [protoLoopFrom] at h
    cases h1 : validate_single_protocol p i with
    | error msg => rw [h1] at h; simp [Bind.bind, Except.bind] at h
    | ok e1 =>
      rw [h1] at h
      cases h2 : protoLoopFrom (i+1) rest with
      | error msg => rw [h2] at h; simp [Bind.bind, Except.bind] at h
      | ok r2 =>
        rw [h2] at h
        simp [Bind.bind, Except.bind, Pure.pure, Except.pure] at h
        subst h
        rcases List.mem_append.1 he with hm | hm
        · obtain ⟨a2, a3, hc2, hc3, heq⟩ := validate_single_protocol_ok p i e1 h1
          subst heq
          rcases List.mem_append.1 hm with hm2 | hm2
          · rcases List.mem_append.1 hm2 with hm3 | hm3
            · split at hm3
              · exact Or.inl ⟨_, _, List.mem_singleton.1 hm3⟩
              · cases hm3
            · obtain ⟨v, hv⟩ := mem_checkProtoAbbr_ok p i a2 hc2 e hm3
              exact Or.inr (Or.inl ⟨_, _, hv⟩)
          · rcases mem_checkPgnPid_ok p i a3 hc3 e hm2 with hv | hv
            · exact Or.inr (Or.inr (Or.inl ⟨_, hv⟩))
            · exact Or.inr (Or.inr (Or.inr ⟨_, hv⟩))
        · exact ih (i+1) r2 h2 e hm

/-- Every error of a duplicate check is built by its constructor. -/
lemma mem_dupCheck (key : String) (mk : Option Val → CustomErr) :
    ∀ (l : List Rec) (seen : List (Option Val)), ∀ e ∈ dupCheck key mk seen l, ∃ a, e = mk a := by
  intro l
  induction l with
  | nil => intro seen e he; cases he
  | cons r rest ih =>
    intro seen e he
    simp only [dupCheck] at he
    split at he
    · rcases List.mem_cons.1 he with heq | hm
      · exact ⟨_, heq⟩
      · exact ih seen e hm
    · exact ih _ e he

lemma count_eq_zero_of_all_ne {c : CustomErr} {l : List CustomErr}
    (h : ∀ e ∈ l, e ≠ c) : l.count c = 0 := by
  rw [List.count_eq_zero]
  intro hc
  exact h c hc rfl

/-- Decomposition of a successful parameters-stage body. -/
lemma paramsBodyErrors_ok_decomp (d : ParamsDoc) (errs : List CustomErr)
    (h : paramsBodyErrors d = .ok errs) :
    ∃ per ab, paramLoopFrom 1 (optList d.parameters) = .ok per ∧
      validate_abbr_metrics (optList d.abbr_metrics) = .ok ab ∧
      errs = check_duplicate_parameter_ids (optList d.parameters) ++
        check_duplicate_parameter_names (optList d.parameters) ++ per ++
        validate_breadcrumb_fields (optList d.breadcrumb_fields) ++
        validate_vg5_fields (optList d.vg5_fields) ++ ab := by
  simp only [paramsBodyErrors] at h
  cases hper : paramLoopFrom 1 (optList d.parameters) with
  | error e => rw [hper] at h; simp [Bind.bind, Except.bind] at h
  | ok per =>
    rw [hper] at h
    cases hab : validate_abbr_metrics (optList d.abbr_metrics) with
    | error e => rw [hab] at h; simp [Bind.bind, Except.bind] at h
    | ok ab =>
      rw [hab] at h
      simp [Bind.bind, Except.bind, Pure.pure, Except.pure] at h
      exact ⟨per, ab, rfl, rfl, by simp [List.append_assoc] at h ⊢; exact h.symm⟩

/-- Decomposition of a successful protocols-stage body. -/
lemma protosBodyErrors_ok_decomp (d : ProtosDoc) (errs : List CustomErr)
    (h : protosBodyErrors d = .ok errs) :
    ∃ per, protoLoopFrom 1 (optList d.protocols) = .ok per ∧
      errs = check_duplicate_group_ids (optList d.protocol_groups) ++
        check_duplicate_group_names (optList d.protocol_groups) ++ per := by
  simp only [protosBodyErrors] at h
  cases hper : protoLoopFrom 1 (optList d.protocols) with
  | error e => rw [hper] at h; simp [Bind.bind, Except.bind] at h
  | ok per =>
    rw [hper] at h
    simp [Bind.bind, Except.bind, Pure.pure, Except.pure] at h
    exact ⟨per, rfl, by simp [List.append_assoc] at h ⊢; exact h.symm⟩

/-- Duplicate-id error count of a completed parameters stage: one error
for each occurrence of a value beyond its first. -/
lemma paramsBody_count_dupParamId (d : ParamsDoc) (errs : List CustomErr) (ov : Option Val)
    (h : paramsBodyErrors d = .ok errs) :
    errs.count (CustomErr.dupParamId ov) =
      ((optList d.parameters).map (fun r => Rec.get r "id")).count ov - 1 := by
  obtain ⟨per, ab, hper, hab, heq⟩ := paramsBodyErrors_ok_decomp d errs h
  subst heq
  repeat rw [List.count_append]
  have hA : (check_duplicate_parameter_ids (optList d.parameters)).count (CustomErr.dupParamId ov) =
      ((optList d.parameters).map (fun r => Rec.get r "id")).count ov - 1 := by
    unfold check_duplicate_parameter_ids
    rw [dupCheck_count "id" CustomErr.dupParamId (fun a b hc => by injection hc) ov]
    simp
  have hB : (check_duplicate_parameter_names (optList d.parameters)).count (CustomErr.dupParamId ov) = 0 := by
    apply count_eq_zero_of_all_ne
    intro e he
    obtain ⟨a, ha⟩ := mem_dupCheck "field_name" CustomErr.dupParamName _ _ e he
    subst ha
    simp
  have hP : per.count (CustomErr.dupParamId ov) = 0 := by
    apply count_eq_zero_of_all_ne
    intro e he
    rcases mem_paramLoopFrom _ _ _ hper e he with ⟨d', hd⟩ | ⟨d', r', hd⟩ | ⟨d', hd⟩ <;>
      subst hd <;> simp
  have hBc : (validate_breadcrumb_fields (optList d.breadcrumb_fields)).count
      (CustomErr.dupParamId ov) = 0 := by
    apply count_eq_zero_of_all_ne
    intro e he
    obtain ⟨j, hj⟩ := mem_breadcrumbErrsFrom _ _ e he
    subst hj
    simp
  have hV : (validate_vg5_fields (optList d.vg5_fields)).count (CustomErr.dupParamId ov) = 0 := by
    apply count_eq_zero_of_all_ne
    intro e he
    obtain ⟨j, hj⟩ := mem_vg5ErrsFrom _ _ e he
    subst hj
    simp
  have hAb : ab.count (CustomErr.dupParamId ov) = 0 := by
    apply count_eq_zero_of_all_ne
    intro e he
    rcases mem_abbrMetricErrsFrom _ _ _ hab e he with ⟨j, v', hj⟩ | ⟨j, hj⟩ | ⟨j, hj⟩ <;>
      subst hj <;> simp
  omega

/-- Duplicate-field_name error count of a completed parameters stage. -/
lemma paramsBody_count_dupParamName (d : ParamsDoc) (errs : List CustomErr) (ov : Option Val)
    (h : paramsBodyErrors d = .ok errs) :
    errs.count (CustomErr.dupParamName ov) =
      ((optList d.parameters).map (fun r => Rec.get r "field_name")).count ov - 1 := by
  obtain ⟨per, ab, hper, hab, heq⟩ := paramsBodyErrors_ok_decomp d errs h
  subst heq
  repeat rw [List.count_append]
  have hA : (check_duplicate_parameter_ids (optList d.parameters)).count (CustomErr.dupParamName ov) = 0 := by
    apply count_eq_zero_of_all_ne
    intro e he
    obtain ⟨a, ha⟩ := mem_dupCheck "id" CustomErr.dupParamId _ _ e he
    subst ha
    simp
  have hB : (check_duplicate_parameter_names (optList d.parameters)).count (CustomErr.dupParamName ov) =
      ((optList d.parameters).map (fun r => Rec.get r "field_name")).count ov - 1 := by
    unfold check_duplicate_parameter_names
    rw [dupCheck_count "field_name" CustomErr.dupParamName (fun a b hc => by injection hc) ov]
    simp
  have hP : per.count (CustomErr.dupParamName ov) = 0 := by
    apply count_eq_zero_of_all_ne
    intro e he
    rcases mem_paramLoopFrom _ _ _ hper e he with ⟨d', hd⟩ | ⟨d', r', hd⟩ | ⟨d', hd⟩ <;>
      subst hd <;> simp
  have hBc : (validate_breadcrumb_fields (optList d.breadcrumb_fields)).count
      (CustomErr.dupParamName ov) = 0 := by
    apply count_eq_zero_of_all_ne
    intro e he
    obtain ⟨j, hj⟩ := mem_breadcrumbErrsFrom _ _ e he
    subst hj
    simp
  have hV : (validate_vg5_fields (optList d.vg5_fields)).count (CustomErr.dupParamName ov) = 0 := by
    apply count_eq_zero_of_all_ne
    intro e he
    obtain ⟨j, hj⟩ := mem_vg5ErrsFrom _ _ e he
    subst hj
    simp
  have hAb : ab.count (CustomErr.dupParamName ov) = 0 := by
    apply count_eq_zero_of_all_ne
    intro e he
    rcases mem_abbrMetricErrsFrom _ _ _ hab e he with ⟨j, v', hj⟩ | ⟨j, hj⟩ | ⟨j, hj⟩ <;>
      subst hj <;> simp
  omega

/-- Duplicate-group-id error count of a completed protocols stage. -/
lemma protosBody_count_dupGroupId (d : ProtosDoc) (errs : List CustomErr) (ov : Option Val)
    (h : protosBodyErrors d = .ok errs) :
    errs.count (CustomErr.dupGroupId ov) =
      ((optList d.protocol_groups).map (fun r => Rec.get r "id")).count ov - 1 := by
  obtain ⟨per, hper, heq⟩ := protosBodyErrors_ok_decomp d errs h
  subst heq
  repeat rw [List.count_append]
  have hA : (check_duplicate_group_ids (optList d.protocol_groups)).count (CustomErr.dupGroupId ov) =
      ((optList d.protocol_groups).map (fun r => Rec.get r "id")).count ov - 1 := by
    unfold check_duplicate_group_ids
    rw [dupCheck_count "id" CustomErr.dupGroupId (fun a b hc => by injection hc) ov]
    simp
  have hB : (check_duplicate_group_names (optList d.protocol_groups)).count (CustomErr.dupGroupId ov) = 0 := by
    apply count_eq_zero_of_all_ne
    intro e he
    obtain ⟨a, ha⟩ := mem_dupCheck "group_name" CustomErr.dupGroupName _ _ e he
    subst ha
    simp
  have hP : per.count (CustomErr.dupGroupId ov) = 0 := by
    apply count_eq_zero_of_all_ne
    intro e he
    rcases mem_protoLoopFrom _ _ _ hper e he with ⟨j, s', hd⟩ | ⟨j, v', hd⟩ | ⟨j, hd⟩ | ⟨j, hd⟩ <;>
      subst hd <;> simp
  omega

/-- Duplicate-group-name error count of a completed protocols stage. -/
lemma protosBody_count_dupGroupName (d : ProtosDoc) (errs : List CustomErr) (ov : Option Val)
    (h : protosBodyErrors d = .ok errs) :
    errs.count (CustomErr.dupGroupName ov) =
      ((optList d.protocol_groups).map (fun r => Rec.get r "group_name")).count ov - 1 := by
  obtain ⟨per, hper, heq⟩ := protosBodyErrors_ok_decomp d errs h
  subst heq
  repeat rw [List.count_append]
  have hA : (check_duplicate_group_ids (optList d.protocol_groups)).count (CustomErr.dupGroupName ov) = 0 := by
    apply count_eq_zero_of_all_ne
    intro e he
    obtain ⟨a, ha⟩ := mem_dupCheck "id" CustomErr.dupGroupId _ _ e he
    subst ha
    simp
  have hB : (check_duplicate_group_names (optList d.protocol_groups)).count (CustomErr.dupGroupName ov) =
      ((optList d.protocol_groups).map (fun r => Rec.get r "group_name")).count ov - 1 := by
    unfold check_duplicate_group_names
    rw [dupCheck_count "group_name" CustomErr.dupGroupName (fun a b hc => by injection hc) ov]
    simp
  have hP : per.count (CustomErr.dupGroupName ov) = 0 := by
    apply count_eq_zero_of_all_ne
    intro e he
    rcases mem_protoLoopFrom _ _ _ hper e he with ⟨j, s', hd⟩ | ⟨j, v', hd⟩ | ⟨j, hd⟩ | ⟨j, hd⟩ <;>
      subst hd <;> simp
  omega

/-- If every completed body carries at least one occurrence of some error,
the parameters stage reports invalid (also when the body raises). -/
lemma params_stage_invalid_of_count (d : ParamsDoc) (c : CustomErr)
    (hcount : ∀ errs, paramsBodyErrors d = .ok errs → 1 ≤ errs.count c) :
    (validate_parameters_business_logic (.parsed d)).1 = false := by
  cases hb : paramsBodyErrors d with
  | error e => simp [validate_parameters_business_logic, hb]
  | ok errs =>
    have h1 := hcount errs hb
    have hne : errs ≠ [] := by
      intro hc
      subst hc
      simp at h1
    have hemp : errs.isEmpty = false := by
      cases errs
      · exact absurd rfl hne
      · rfl
    simp [validate_parameters_business_logic, hb, hemp]

/-- Protocols-stage analogue of `params_stage_invalid_of_count`. -/
lemma protos_stage_invalid_of_count (d : ProtosDoc) (c : CustomErr)
    (hcount : ∀ errs, protosBodyErrors d = .ok errs → 1 ≤ errs.count c) :
    (validate_protocols_business_logic (.parsed d)).1 = false := by
  cases hb : protosBodyErrors d with
  | error e => simp [validate_protocols_business_logic, hb]
  | ok errs =>
    have h1 := hcount errs hb
    have hne : errs ≠ [] := by
      intro hc
      subst hc
      simp at h1
    have hemp : errs.isEmpty = false := by
      cases errs
      · exact absurd rfl hne
      · rfl
    simp [validate_protocols_business_logic, hb, hemp]

/-- A parameters document with a duplicated id followed by a record whose
integer `protocol_reference` raises during checking. -/
def c3ExnDoc : ParamsDoc :=
  ⟨some [[("id", Val.VInt 1)], [("id", Val.VInt 1)], [("protocol_reference", Val.VInt 5)]],
   none, none, none⟩

/-- **C3 (counterexample).** The claim says every duplicate occurrence
beyond the first produces a distinct reported error. In `c3ExnDoc` the
first two parameters share id 1, and validation indeed returns invalid,
but because checking the third record raises, the stage-level handler
reports only the exception message: no duplicate-id error appears. -/
theorem c3_counterexample :
    ((optList c3ExnDoc.parameters).map (fun r => Rec.get r "id")).get? 0 = some (some (Val.VInt 1)) ∧
    ((optList c3ExnDoc.parameters).map (fun r => Rec.get r "id")).get? 1 = some (some (Val.VInt 1)) ∧
    validate_parameters_business_logic (.parsed c3ExnDoc) =
      (false, ["Custom validation error: AttributeError: int object has no attribute endswith"]) ∧
    (∀ m ∈ (validate_parameters_business_logic (.parsed c3ExnDoc)).2,
      m ≠ "Duplicate parameter ID: 1") := by
  refine ⟨rfl, rfl, rfl, ?_⟩
  decide

/-- **C3 (amended).** For every document with duplicate `id` or duplicate
`field_name`/`group_name` values within the same top-level list, rule
validation returns invalid; and provided checking the records raises no
exception (the stage body completes), the first occurrence of each value
produces no error while each duplicate occurrence beyond the first
produces exactly one reported error (the error count for a value is its
occurrence count minus one). -/
theorem c3_duplicates_reported :
    (∀ (d : ParamsDoc) (i j : Nat) (v : Val), i < j →
      ((optList d.parameters).map (fun r => Rec.get r "id")).get? i = some (some v) →
      ((optList d.parameters).map (fun r => Rec.get r "id")).get? j = some (some v) →
      (validate_parameters_business_logic (.parsed d)).1 = false) ∧
    (∀ (d : ParamsDoc) (i j : Nat) (v : Val), i < j →
      ((optList d.parameters).map (fun r => Rec.get r "field_name")).get? i = some (some v) →
      ((optList d.parameters).map (fun r => Rec.get r "field_name")).get? j = some (some v) →
      (validate_parameters_business_logic (.parsed d)).1 = false) ∧
    (∀ (d : ProtosDoc) (i j : Nat) (v : Val), i < j →
      ((optList d.protocol_groups).map (fun r => Rec.get r "id")).get? i = some (some v) →
      ((optList d.protocol_groups).map (fun r => Rec.get r "id")).get? j = some (some v) →
      (validate_protocols_business_logic (.parsed d)).1 = false) ∧
    (∀ (d : ProtosDoc) (i j : Nat) (v : Val), i < j →
      ((optList d.protocol_groups).map (fun r => Rec.get r "group_name")).get? i = some (some v) →
      ((optList d.protocol_groups).map (fun r => Rec.get r "group_name")).get? j = some (some v) →
      (validate_protocols_business_logic (.parsed d)).1 = false) ∧
    (∀ (d : ParamsDoc) (errs : List CustomErr) (ov : Option Val),
      paramsBodyErrors d = .ok errs →
      errs.count (CustomErr.dupParamId ov) =
        ((optList d.parameters).map (fun r => Rec.get r "id")).count ov - 1) ∧
    (∀ (d : ParamsDoc) (errs : List CustomErr) (ov : Option Val),
      paramsBodyErrors d = .ok errs →
      errs.count (CustomErr.dupParamName ov) =
        ((optList d.parameters).map (fun r => Rec.get r "field_name")).count ov - 1) ∧
    (∀ (d : ProtosDoc) (errs : List CustomErr) (ov : Option Val),
      protosBodyErrors d = .ok errs →
      errs.count (CustomErr.dupGroupId ov) =
        ((optList d.protocol_groups).map (fun r => Rec.get r "id")).count ov - 1) ∧
    (∀ (d : ProtosDoc) (errs : List CustomErr) (ov : Option Val),
      protosBodyErrors d = .ok errs →
      errs.count (CustomErr.dupGroupName ov) =
        ((optList d.protocol_groups).map (fun r => Rec.get r "group_name")).count ov - 1) := by
  refine ⟨?_, ?_, ?_, ?_, paramsBody_count_dupParamId, paramsBody_count_dupParamName,
    protosBody_count_dupGroupId, protosBody_count_dupGroupName⟩
  · intro d i j v hij hi hj
    apply params_stage_invalid_of_count d (.dupParamId (some v))
    intro errs hb
    rw [paramsBody_count_dupParamId d errs (some v) hb]
    have h2 := two_le_count_of_get? _ i j _ hij hi hj
    omega
  · intro d i j v hij hi hj
    apply params_stage_invalid_of_count d (.dupParamName (some v))
    intro errs hb
    rw [paramsBody_count_dupParamName d errs (some v) hb]
    have h2 := two_le_count_of_get? _ i j _ hij hi hj
    omega
  · intro d i j v hij hi hj
    apply protos_stage_invalid_of_count d (.dupGroupId (some v))
    intro errs hb
    rw [protosBody_count_dupGroupId d errs (some v) hb]
    have h2 := two_le_count_of_get? _ i j _ hij hi hj
    omega
  · intro d i j v hij hi hj
    apply protos_stage_invalid_of_count d (.dupGroupName (some v))
    intro errs hb
    rw [protosBody_count_dupGroupName d errs (some v) hb]
    have h2 := two_le_count_of_get? _ i j _ hij hi hj
    omega

/-- Parameters document with two records sharing id 1 (and no faulting
record). -/
def dupIdsDoc : ParamsDoc :=
  ⟨some [[("id", Val.VInt 1)], [("id", Val.VInt 1)]], none, none, none⟩

/-- Witness for C3: on `dupIdsDoc`, the stage is invalid and the
completed body carries exactly one duplicate-id error for id 1 (two
occurrences minus the unreported first). -/
theorem c3_duplicates_reported_witness :
    (validate_parameters_business_logic (.parsed dupIdsDoc)).1 = false ∧
    paramsBodyErrors dupIdsDoc =
      .ok [CustomErr.dupParamId (some (Val.VInt 1)), CustomErr.dupParamName none] ∧
    [CustomErr.dupParamId (some (Val.VInt 1)), CustomErr.dupParamName none].count
        (CustomErr.dupParamId (some (Val.VInt 1))) =
      ((optList dupIdsDoc.parameters).map (fun r => Rec.get r "id")).count (some (Val.VInt 1)) - 1 :=
  ⟨(c3_duplicates_reported).1 dupIdsDoc 0 1 (Val.VInt 1) (by omega) rfl rfl,
   rfl,
   (c3_duplicates_reported).2.2.2.2.1 dupIdsDoc
     [CustomErr.dupParamId (some (Val.VInt 1)), CustomErr.dupParamName none]
     (some (Val.VInt 1)) rfl⟩

/-! ## C4: exception propagation -/

/-- An exception at the record after an error-free prefix aborts the
per-parameter loop with that exception, regardless of the remaining
records. -/
lemma paramLoopFrom_append_error :
    ∀ (l₁ : List Rec) (i : Nat) (es : List CustomErr) (p : Rec) (l₂ : List Rec) (e : String),
      paramLoopFrom i l₁ = .ok es →
      validate_single_parameter p (i + l₁.length) = .error e →
      paramLoopFrom i (l₁ ++ p :: l₂) = .error e := by
  intro l₁
  induction l₁ with
  | nil =>
    intro i es p l₂ e _ h2
    simp only [List.nil_append, paramLoopFrom]
    rw [show i + [].length = i from by simp] at h2
    rw [h2]
    rfl
  | cons q rest ih =>
    intro i es p l₂ e h1 h2
    simp only [paramLoopFrom] at h1
    cases hq : validate_single_parameter q i with
    | error msg => rw [hq] at h1; simp [Bind.bind, Except.bind] at h1
    | ok e1 =>
      rw [hq] at h1
      cases hrest : paramLoopFrom (i+1) rest with
      | error msg => rw [hrest] at h1; simp [Bind.bind, Except.bind] at h1
      | ok es' =>
        have h2' : validate_single_parameter p ((i+1) + rest.length) = .error e := by
          rw [show (i+1) + rest.length = i + (q :: rest).length from by simp; omega]
          exact h2
        have htail := ih (i+1) es' p l₂ e hrest h2'
        simp only [List.cons_append, paramLoopFrom]
        rw [hq]
        have htail' : paramLoopFrom (i + 1) (rest.append (p :: l₂)) = Except.error e := htail
        rw [htail']
        rfl

/-- The faulting parameter record of the C4 scenario: its integer
`protocol_reference` makes `.endswith` raise. -/
def c4FaultRec : Rec := [("protocol_reference", Val.VInt 5)]

/-- The later record with a genuine business-rule violation. -/
def c4ViolRec : Rec := [("field_name", Val.VStr "X"), ("reason_added", Val.VStr "bogus")]

/-- Parameters document where record 1 faults and record 2 violates. -/
def c4Doc : ParamsDoc := ⟨some [c4FaultRec, c4ViolRec], none, none, none⟩

/-- **C4 (counterexample).** The claim says an exception while checking
one record does not abort the checking of the remaining records and their
violations are still reported. In `c4Doc`, record 2 has a reportable
violation (checked alone it yields an invalid-reason error), but because
record 1 raises, the stage returns only the exception message and record
2's violation is never reported. -/
theorem c4_counterexample :
    validate_single_parameter c4ViolRec 2 =
      .ok [CustomErr.badReason "X" (Val.VStr "bogus")] ∧
    validate_parameters_business_logic (.parsed c4Doc) =
      (false, ["Custom validation error: AttributeError: int object has no attribute endswith"]) ∧
    (∀ m ∈ (validate_parameters_business_logic (.parsed c4Doc)).2,
      m ≠ renderCustomErr (CustomErr.badReason "X" (Val.VStr "bogus"))) := by
  refine ⟨rfl, rfl, ?_⟩
  decide

/-- **C4 (amended).** An exception raised while checking one record is
caught at the stage boundary and converted into a single error message:
the stage function returns invalid without raising, but the remaining
records of that document are not checked in that stage — the stage output
is the exception message alone, independent of the records after the
faulting one and of any errors already collected. -/
theorem c4_exception_caught_at_stage_boundary (d : ParamsDoc) (l₁ l₂ : List Rec)
    (p : Rec) (e : String) (es : List CustomErr)
    (hps : optList d.parameters = l₁ ++ p :: l₂)
    (hpre : paramLoopFrom 1 l₁ = .ok es)
    (hexn : validate_single_parameter p (l₁.length + 1) = .error e) :
    validate_parameters_business_logic (.parsed d) =
      (false, ["Custom validation error: " ++ e]) := by
  have hloop : paramLoopFrom 1 (optList d.parameters) = .error e := by
    rw [hps]
    exact paramLoopFrom_append_error l₁ 1 es p l₂ e hpre
      (by rw [show 1 + l₁.length = l₁.length + 1 from by omega]; exact hexn)
  have hbody : paramsBodyErrors d = .error e := by
    simp only [paramsBodyErrors]
    rw [hloop]
    rfl
  simp [validate_parameters_business_logic, hbody]

/-- Witness for C4 (amended): applied to `c4Doc`, whose first record
faults with an empty error-free prefix. -/
theorem c4_exception_caught_at_stage_boundary_witness :
    optList c4Doc.parameters = ([] : List Rec) ++ c4FaultRec :: [c4ViolRec] ∧
    paramLoopFrom 1 [] = .ok [] ∧
    validate_single_parameter c4FaultRec 1 =
      .error "AttributeError: int object has no attribute endswith" ∧
    validate_parameters_business_logic (.parsed c4Doc) =
      (false, ["Custom validation error: AttributeError: int object has no attribute endswith"]) :=
  ⟨rfl, rfl, rfl,
   c4_exception_caught_at_stage_boundary c4Doc [] [c4ViolRec] c4FaultRec
     "AttributeError: int object has no attribute endswith" [] rfl rfl rfl⟩

/-! ## Dict lemmas for the bidirectional check (C1, C10) -/

lemma dictLookup_insert_self (d : Dict) (k v : Val) :
    dictLookup (dictInsert d k v) k = some v := by
  induction d with
  | nil => simp [dictInsert, dictLookup]
  | cons kv rest ih =>
    obtain ⟨k1, v1⟩ := kv
    by_cases h : k1 = k
    · simp [dictInsert, dictLookup, h]
    · simp [dictInsert, dictLookup, h, ih]

lemma dictLookup_insert_ne (d : Dict) (k v k' : Val) (h : k' ≠ k) :
    dictLookup (dictInsert d k v) k' = dictLookup d k' := by
  have h2 : ¬(k = k') := fun hc => h hc.symm
  induction d with
  | nil => simp [dictInsert, dictLookup, h2]
  | cons kv rest ih =>
    obtain ⟨k1, v1⟩ := kv
    by_cases hk : k1 = k
    · subst hk
      simp [dictInsert, dictLookup, h2]
    · by_cases hk' : k1 = k'
      · simp [dictInsert, dictLookup, hk, hk', h]
      · simp [dictInsert, dictLookup, hk, hk', ih]

lemma dictLookup_mem (d : Dict) (k v : Val) (h : dictLookup d k = some v) :
    (k, v) ∈ d := by
  induction d with
  | nil => cases h
  | cons kv rest ih =>
    simp only [dictLookup] at h
    split at h
    · rename_i heq
      injection h with h
      subst h
      subst heq
      exact List.mem_cons_self _ _
    · exact List.mem_cons_of_mem _ (ih h)

lemma mem_dictInsert (d : Dict) (k v a b : Val) (h : (a, b) ∈ dictInsert d k v) :
    (a, b) = (k, v) ∨ (a, b) ∈ d := by
  induction d with
  | nil => simpa [dictInsert] using h
  | cons kv rest ih =>
    simp only [dictInsert] at h
    split at h
    · rcases List.mem_cons.1 h with heq | hm
      · exact Or.inl heq
      · exact Or.inr (List.mem_cons_of_mem _ hm)
    · rcases List.mem_cons.1 h with heq | hm
      · exact Or.inr (heq ▸ List.mem_cons_self _ _)
      · rcases ih hm with h1 | h1
        · exact Or.inl h1
        · exact Or.inr (List.mem_cons_of_mem _ h1)

/-- If no record of `l` contributes key `k`, the fold leaves `k` alone. -/
lemma refMapFold_lookup_no (kf vf : String) (k : Val) :
    ∀ (l : List Rec) (d0 : Dict),
      (∀ r ∈ l, ∀ v', Rec.truthyGet r kf = some k → Rec.truthyGet r vf = some v' → False) →
      dictLookup (l.foldl (refMapStep kf vf) d0) k = dictLookup d0 k := by
  intro l
  induction l with
  | nil => intro d0 _; rfl
  | cons r rest ih =>
    intro d0 hno
    simp only [List.foldl_cons]
    have hrest : ∀ r' ∈ rest, ∀ v', Rec.truthyGet r' kf = some k →
        Rec.truthyGet r' vf = some v' → False :=
      fun r' hr' => hno r' (List.mem_cons_of_mem r hr')
    rw [ih _ hrest]
    unfold refMapStep
    cases hk : Rec.truthyGet r kf with
    | none => rfl
    | some k1 =>
      cases hv : Rec.truthyGet r vf with
      | none => rfl
      | some v1 =>
        have hne : k1 ≠ k := by
          intro hc
          subst hc
          exact hno r (List.mem_cons_self r rest) v1 hk hv
        simp only []
        exact dictLookup_insert_ne d0 k1 v1 k (fun hc => hne hc.symm)

/-- If some record of `l` contributes `(k, v)` and every contribution with
key `k` carries value `v`, the fold maps `k` to `v`. -/
lemma refMapFold_lookup_eq (kf vf : String) (k v : Val) :
    ∀ (l : List Rec) (d0 : Dict),
      (∀ r ∈ l, ∀ v', Rec.truthyGet r kf = some k → Rec.truthyGet r vf = some v' → v' = v) →
      (∃ r ∈ l, Rec.truthyGet r kf = some k ∧ Rec.truthyGet r vf = some v) →
      dictLookup (l.foldl (refMapStep kf vf) d0) k = some v := by
  intro l
  induction l with
  | nil =>
    intro d0 _ hex
    obtain ⟨r, hr, _⟩ := hex
    cases hr
  | cons r rest ih =>
    intro d0 huniq hex
    simp only [List.foldl_cons]
    have huniqRest : ∀ r' ∈ rest, ∀ v', Rec.truthyGet r' kf = some k →
        Rec.truthyGet r' vf = some v' → v' = v :=
      fun r' hr' => huniq r' (List.mem_cons_of_mem r hr')
    by_cases hrest : ∃ r' ∈ rest, Rec.truthyGet r' kf = some k ∧ Rec.truthyGet r' vf = some v
    · exact ih _ huniqRest hrest
    · -- the head record must be the contributor, and no rest record contributes key k
      obtain ⟨r0, hr0, hk0, hv0⟩ := hex
      have hr0head : r0 = r := by
        rcases List.mem_cons.1 hr0 with h | h
        · exact h
        · exact absurd ⟨r0, h, hk0, hv0⟩ hrest
      subst hr0head
      have hnoRest : ∀ r' ∈ rest, ∀ v', Rec.truthyGet r' kf = some k →
          Rec.truthyGet r' vf = some v' → False := by
        intro r' hr' v' hk' hv'
        have hv'v : v' = v := huniqRest r' hr' v' hk' hv'
        subst hv'v
        exact hrest ⟨r', hr', hk', hv'⟩
      rw [refMapFold_lookup_no kf vf k rest _ hnoRest]
      unfold refMapStep
      rw [hk0, hv0]
      exact dictLookup_insert_self d0 k v

/-- Every entry of the fold comes from the initial dict or from a
contributing record. -/
lemma refMapFold_mem (kf vf : String) :
    ∀ (l : List Rec) (d0 : Dict) (a b : Val),
      (a, b) ∈ l.foldl (refMapStep kf vf) d0 →
      (a, b) ∈ d0 ∨ ∃ r ∈ l, Rec.truthyGet r kf = some a ∧ Rec.truthyGet r vf = some b := by
  intro l
  induction l with
  | nil => intro d0 a b h; exact Or.inl h
  | cons r rest ih =>
    intro d0 a b h
    simp only [List.foldl_cons] at h
    rcases ih _ a b h with h1 | ⟨r', hr', hk', hv'⟩
    · unfold refMapStep at h1
      cases hk : Rec.truthyGet r kf with
      | none => rw [hk] at h1; exact Or.inl h1
      | some k1 =>
        cases hv : Rec.truthyGet r vf with
        | none => rw [hk, hv] at h1; exact Or.inl h1
        | some v1 =>
          rw [hk, hv] at h1
          rcases mem_dictInsert d0 k1 v1 a b h1 with heq | hm
          · injection heq with h1 h2
            subst h1
            subst h2
            exact Or.inr ⟨r, List.mem_cons_self r rest, hk, hv⟩
          · exact Or.inl hm
    · exact Or.inr ⟨r', List.mem_cons_of_mem r hr', hk', hv'⟩

/-- An error-free forward scan means every map item points at a group
that points back at exactly that parameter. -/
lemma bidirForwardErrs_nil (ptp : Dict) :
    ∀ (l : List (Val × Val)), bidirForwardErrs ptp l = [] →
      ∀ kv ∈ l, dictLookup ptp kv.2 = some kv.1 := by
  intro l
  induction l with
  | nil => intro _ kv hkv; cases hkv
  | cons kv0 rest ih =>
    intro h kv hkv
    obtain ⟨pn, gn⟩ := kv0
    simp only [bidirForwardErrs] at h
    rcases List.append_eq_nil.1 h with ⟨h1, h2⟩
    rcases List.mem_cons.1 hkv with heq | hm
    · subst heq
      cases hlk : dictLookup ptp gn with
      | none =>
        simp only [hlk] at h1
        exact absurd h1 (List.cons_ne_nil _ _)
      | some expected =>
        simp only [hlk] at h1
        by_cases hexp : expected = pn
        · simp [hexp]
        · simp [hexp] at h1
    · exact ih h2 kv hm

/-- An error-free orphan scan means every group item points at a
parameter that points back at exactly that group. -/
lemma bidirOrphanErrs_nil (p2p : Dict) :
    ∀ (l : List (Val × Val)), bidirOrphanErrs p2p l = [] →
      ∀ kv ∈ l, dictLookup p2p kv.2 = some kv.1 := by
  intro l
  induction l with
  | nil => intro _ kv hkv; cases hkv
  | cons kv0 rest ih =>
    intro h kv hkv
    obtain ⟨gn, pn⟩ := kv0
    simp only [bidirOrphanErrs] at h
    rcases List.append_eq_nil.1 h with ⟨h1, h2⟩
    rcases List.mem_cons.1 hkv with heq | hm
    · subst heq
      cases hlk : dictLookup p2p pn with
      | none =>
        simp only [hlk] at h1
        exact absurd h1 (List.cons_ne_nil _ _)
      | some r =>
        simp only [hlk] at h1
        by_cases hr : r = gn
        · simp [hr]
        · simp [hr] at h1
    · exact ih h2 kv hm

/-- An orphan map item whose target is absent from the parameter map
produces the parameter-does-not-exist error. -/
lemma bidirOrphanErrs_mem_missing (p2p : Dict) :
    ∀ (l : List (Val × Val)) (gn gr : Val), (gn, gr) ∈ l → dictLookup p2p gr = none →
      BidirErr.groupParamMissing gn gr ∈ bidirOrphanErrs p2p l := by
  intro l
  induction l with
  | nil => intro gn gr h; cases h
  | cons kv0 rest ih =>
    intro gn gr hmem hlk
    obtain ⟨g0, r0⟩ := kv0
    simp only [bidirOrphanErrs]
    rcases List.mem_cons.1 hmem with heq | hm
    · injection heq with h1 h2
      subst h1
      subst h2
      simp only [hlk]
      exact List.mem_append_left _ (List.mem_singleton.2 rfl)
    · exact List.mem_append_right _ (ih gn gr hm hlk)

/-- Forward-scan errors name a parameter map item as their subject. -/
lemma mem_bidirForwardErrs (ptp : Dict) :
    ∀ (l : List (Val × Val)) (e : BidirErr), e ∈ bidirForwardErrs ptp l →
      ∃ kv ∈ l, (∃ ep, e = BidirErr.inconsistent kv.1 kv.2 ep) ∨ e = BidirErr.noGroup kv.1 kv.2 := by
  intro l
  induction l with
  | nil => intro e he; cases he
  | cons kv0 rest ih =>
    intro e he
    obtain ⟨pn, gn⟩ := kv0
    simp only [bidirForwardErrs] at he
    rcases List.mem_append.1 he with hm | hm
    · refine ⟨(pn, gn), List.mem_cons_self _ _, ?_⟩
      cases hlk : dictLookup ptp gn with
      | none =>
        simp only [hlk] at hm
        exact Or.inr (List.mem_singleton.1 hm)
      | some expected =>
        simp only [hlk] at hm
        by_cases hexp : expected = pn
        · simp [hexp] at hm
        · have hm' : e ∈ [BidirErr.inconsistent pn gn expected] := by
            simpa [hexp] using hm
          exact Or.inl ⟨expected, List.mem_singleton.1 hm'⟩
    · obtain ⟨kv, hkv, hsh⟩ := ih e hm
      exact ⟨kv, List.mem_cons_of_mem _ hkv, hsh⟩

/-- Orphan-scan errors are only the two group-side error kinds. -/
lemma mem_bidirOrphanErrs (p2p : Dict) :
    ∀ (l : List (Val × Val)) (e : BidirErr), e ∈ bidirOrphanErrs p2p l →
      (∃ k v, e = BidirErr.groupParamMissing k v) ∨
      (∃ k v, e = BidirErr.groupParamDifferent k v) := by
  intro l
  induction l with
  | nil => intro e he; cases he
  | cons kv0 rest ih =>
    intro e he
    obtain ⟨gn, pn⟩ := kv0
    simp only [bidirOrphanErrs] at he
    rcases List.mem_append.1 he with hm | hm
    · cases hlk : dictLookup p2p pn with
      | none =>
        simp only [hlk] at hm
        exact Or.inl ⟨gn, pn, List.mem_singleton.1 hm⟩
      | some r =>
        simp only [hlk] at hm
        by_cases hr : r = gn
        · simp [hr] at hm
        · have hm' : e ∈ [BidirErr.groupParamDifferent gn pn] := by
            simpa [hr] using hm
          exact Or.inr ⟨gn, pn, List.mem_singleton.1 hm'⟩
    · exact ih e hm

/-- A bidirectional error makes the check invalid and its message appears
in the output. -/
lemma bidirErrors_reported (pd : ParamsDoc) (qd : ProtosDoc) (e : BidirErr)
    (h : e ∈ bidirErrors pd qd) :
    (validate_bidirectional_consistency (.parsed pd) (.parsed qd)).1 = false ∧
    renderBidirErr e ∈ (validate_bidirectional_consistency (.parsed pd) (.parsed qd)).2 := by
  have hemp : (bidirErrors pd qd).isEmpty = false := by
    cases hl : bidirErrors pd qd with
    | nil => rw [hl] at h; cases h
    | cons a l => rfl
  constructor
  · simp [validate_bidirectional_consistency, hemp]
  · simp [validate_bidirectional_consistency, hemp]
    exact ⟨e, h, rfl⟩

/-- A valid bidirectional check has an empty error accumulation. -/
lemma bidirErrors_nil_of_valid (pd : ParamsDoc) (qd : ProtosDoc)
    (h : (validate_bidirectional_consistency (.parsed pd) (.parsed qd)).1 = true) :
    bidirErrors pd qd = [] := by
  simp only [validate_bidirectional_consistency] at h
  cases hl : bidirErrors pd qd with
  | nil => rfl
  | cons a l => rw [hl] at h; cases h

/-! ## C1: the bidirectional 2-cycle law -/

/-- A parameter with a protocol_reference but no field_name: skipped by
the bidirectional map building. -/
def c1Param1 : Rec := [("protocol_reference", Val.VStr "ESPD_protocols")]

/-- A well-formed parameter closing the 2-cycle with `c1Group`. -/
def c1Param2 : Rec :=
  [("field_name", Val.VStr "Engine Speed"), ("protocol_reference", Val.VStr "ESPD_protocols")]

/-- The protocol group both parameters point at. -/
def c1Group : Rec :=
  [("group_name", Val.VStr "ESPD_protocols"), ("parameter_reference", Val.VStr "Engine Speed")]

/-- C1 counterexample documents. -/
def c1ParamsDoc : ParamsDoc := ⟨some [c1Param1, c1Param2], none, none, none⟩

/-- C1 counterexample protocols document. -/
def c1ProtosDoc : ProtosDoc := ⟨some [c1Group], none⟩

/-- **C1 (counterexample).** The claim states an unconditional 2-cycle
law: whenever a parameter's protocol_reference equals a group's
group_name, the check passes only if the group's parameter_reference
equals that parameter's field_name. Here `c1Param1.protocol_reference`
equals `c1Group.group_name`, the group's parameter_reference (Engine
Speed) differs from `c1Param1`'s absent field_name, yet the check returns
valid: parameters without a truthy field_name are never entered into the
map. -/
theorem c1_counterexample :
    c1Param1 ∈ optList c1ParamsDoc.parameters ∧
    c1Group ∈ optList c1ProtosDoc.protocol_groups ∧
    Rec.get c1Param1 "protocol_reference" = some (Val.VStr "ESPD_protocols") ∧
    Rec.get c1Group "group_name" = some (Val.VStr "ESPD_protocols") ∧
    Rec.get c1Group "parameter_reference" = some (Val.VStr "Engine Speed") ∧
    Rec.get c1Param1 "field_name" = none ∧
    (validate_bidirectional_consistency (.parsed c1ParamsDoc) (.parsed c1ProtosDoc)).1 = true := by
  exact ⟨List.mem_cons_self _ _, List.mem_cons_self _ _, rfl, rfl, rfl, rfl, rfl⟩

/-- **C1 (amended).** For parameters with truthy `field_name` and
`protocol_reference` and groups with truthy `group_name` and
`parameter_reference` — provided no two such parameters share a
field_name with different protocol_references and no two such groups
share a group_name with different parameter_references (Python-dict
shadowing would otherwise hide earlier records) — a valid
`validate_bidirectional_consistency` run implies every linked pair forms
a closed 2-cycle, in both directions. -/
theorem c1_bidirectional_two_cycle (pd : ParamsDoc) (qd : ProtosDoc)
    (p g : Rec) (fn pr gn gr : Val)
    (hp : p ∈ optList pd.parameters) (hg : g ∈ optList qd.protocol_groups)
    (hfn : Rec.truthyGet p "field_name" = some fn)
    (hpr : Rec.truthyGet p "protocol_reference" = some pr)
    (hgn : Rec.truthyGet g "group_name" = some gn)
    (hgr : Rec.truthyGet g "parameter_reference" = some gr)
    (huniqP : ∀ p' ∈ optList pd.parameters, ∀ pr',
      Rec.truthyGet p' "field_name" = some fn →
      Rec.truthyGet p' "protocol_reference" = some pr' → pr' = pr)
    (huniqG : ∀ g' ∈ optList qd.protocol_groups, ∀ gr',
      Rec.truthyGet g' "group_name" = some gn →
      Rec.truthyGet g' "parameter_reference" = some gr' → gr' = gr)
    (hvalid : (validate_bidirectional_consistency (.parsed pd) (.parsed qd)).1 = true) :
    (pr = gn → gr = fn) ∧ (gr = fn → pr = gn) := by
  have herrs := bidirErrors_nil_of_valid pd qd hvalid
  unfold bidirErrors at herrs
  rcases List.append_eq_nil.1 herrs with ⟨hfwd, horph⟩
  have hlkP : dictLookup (buildParamToProtocol (optList pd.parameters)) fn = some pr := by
    unfold buildParamToProtocol buildRefMap
    exact refMapFold_lookup_eq _ _ fn pr _ [] huniqP ⟨p, hp, hfn, hpr⟩
  have hlkG : dictLookup (buildProtocolToParam (optList qd.protocol_groups)) gn = some gr := by
    unfold buildProtocolToParam buildRefMap
    exact refMapFold_lookup_eq _ _ gn gr _ [] huniqG ⟨g, hg, hgn, hgr⟩
  have hmemP := dictLookup_mem _ _ _ hlkP
  have hmemG := dictLookup_mem _ _ _ hlkG
  constructor
  · intro hpg
    have hback : dictLookup (buildProtocolToParam (optList qd.protocol_groups)) pr = some fn :=
      bidirForwardErrs_nil _ _ hfwd (fn, pr) hmemP
    rw [hpg, hlkG] at hback
    exact Option.some_inj.1 hback
  · intro hgf
    have hback : dictLookup (buildParamToProtocol (optList pd.parameters)) gr = some gn :=
      bidirOrphanErrs_nil _ _ horph (gn, gr) hmemG
    rw [hgf, hlkP] at hback
    exact Option.some_inj.1 hback

/-- Witness for C1 (amended) at Scenario A: the single valid
parameter/group pair satisfies all hypotheses, giving the 2-cycle in both
directions. -/
theorem c1_bidirectional_two_cycle_witness :
    (Val.VStr "ESPD_protocols" = Val.VStr "ESPD_protocols" →
      Val.VStr "Engine Speed" = Val.VStr "Engine Speed") ∧
    (Val.VStr "Engine Speed" = Val.VStr "Engine Speed" →
      Val.VStr "ESPD_protocols" = Val.VStr "ESPD_protocols") := by
  refine c1_bidirectional_two_cycle exParamsDoc exProtosDoc exParam exGroup
    (Val.VStr "Engine Speed") (Val.VStr "ESPD_protocols")
    (Val.VStr "ESPD_protocols") (Val.VStr "Engine Speed")
    (List.mem_cons_self _ _) (List.mem_cons_self _ _) rfl rfl rfl rfl ?_ ?_ rfl
  · intro p' hp' pr' hfn' hpr'
    have hpeq : p' = exParam := by simpa [exParamsDoc, optList] using hp'
    subst hpeq
    have h := hpr'.symm.trans
      (show Rec.truthyGet exParam "protocol_reference" = some (Val.VStr "ESPD_protocols") from rfl)
    injection h
  · intro g' hg' gr' hgn' hgr'
    have hgeq : g' = exGroup := by simpa [exProtosDoc, optList] using hg'
    subst hgeq
    have h := hgr'.symm.trans
      (show Rec.truthyGet exGroup "parameter_reference" = some (Val.VStr "Engine Speed") from rfl)
    injection h

/-! ## C10: truthiness filtering in the bidirectional check -/

/-- First group with the shared name (shadowed in the dict). -/
def c10Group1 : Rec :=
  [("group_name", Val.VStr "ESPD_protocols"), ("parameter_reference", Val.VStr "Engine Speed")]

/-- Second group with the same name: its entry wins in the dict. -/
def c10Group2 : Rec :=
  [("group_name", Val.VStr "ESPD_protocols"), ("parameter_reference", Val.VStr "Road Speed")]

/-- A parameter with a field_name but no protocol_reference. -/
def c10Param : Rec := [("field_name", Val.VStr "Engine Speed")]

/-- C10 counterexample parameters document. -/
def c10ParamsDoc : ParamsDoc := ⟨some [c10Param], none, none, none⟩

/-- C10 counterexample protocols document (duplicate group names). -/
def c10ProtosDoc : ProtosDoc := ⟨some [c10Group1, c10Group2], none⟩

/-- **C10 (counterexample).** The claim says every protocol group whose
parameter_reference names an existing parameter lacking a
protocol_reference gets a "parameter does not exist" report. `c10Group1`
names Engine Speed, which exists and lacks a protocol_reference, yet no
error for Engine Speed is reported: `c10Group2` shares the group name and
its later dict insertion shadows `c10Group1`, so the only error names
Road Speed. -/
theorem c10_counterexample :
    c10Group1 ∈ optList c10ProtosDoc.protocol_groups ∧
    Rec.get c10Group1 "parameter_reference" = some (Val.VStr "Engine Speed") ∧
    c10Param ∈ optList c10ParamsDoc.parameters ∧
    Rec.get c10Param "field_name" = some (Val.VStr "Engine Speed") ∧
    Rec.get c10Param "protocol_reference" = none ∧
    bidirErrors c10ParamsDoc c10ProtosDoc =
      [BidirErr.groupParamMissing (Val.VStr "ESPD_protocols") (Val.VStr "Road Speed")] ∧
    BidirErr.groupParamMissing (Val.VStr "ESPD_protocols") (Val.VStr "Engine Speed") ∉
      bidirErrors c10ParamsDoc c10ProtosDoc := by
  refine ⟨List.mem_cons_self _ _, rfl, List.mem_cons_self _ _, rfl, rfl, rfl, ?_⟩
  decide

/-- **C10 (amended).** `validate_bidirectional_consistency` considers
only parameters with truthy field_name and protocol_reference and groups
with truthy group_name and parameter_reference. Consequently: (a) a group
with truthy fields — no other such group sharing its group_name with a
different parameter_reference — whose parameter_reference names only
parameters lacking a (truthy) protocol_reference is reported with the
parameter-does-not-exist error (even when such a parameter exists in the
list), and the check is invalid; (b) a field_name carried only by
parameters without a truthy protocol_reference is never the subject of a
parameter-side error. -/
theorem c10_truthy_filtering :
    (∀ (pd : ParamsDoc) (qd : ProtosDoc) (g : Rec) (gn gr : Val),
      g ∈ optList qd.protocol_groups →
      Rec.truthyGet g "group_name" = some gn →
      Rec.truthyGet g "parameter_reference" = some gr →
      (∀ g' ∈ optList qd.protocol_groups, ∀ gr',
        Rec.truthyGet g' "group_name" = some gn →
        Rec.truthyGet g' "parameter_reference" = some gr' → gr' = gr) →
      (∃ p ∈ optList pd.parameters, Rec.get p "field_name" = some gr) →
      (∀ p ∈ optList pd.parameters, ∀ pr',
        Rec.truthyGet p "field_name" = some gr →
        Rec.truthyGet p "protocol_reference" = some pr' → False) →
      BidirErr.groupParamMissing gn gr ∈ bidirErrors pd qd ∧
      (validate_bidirectional_consistency (.parsed pd) (.parsed qd)).1 = false ∧
      renderBidirErr (BidirErr.groupParamMissing gn gr) ∈
        (validate_bidirectional_consistency (.parsed pd) (.parsed qd)).2) ∧
    (∀ (pd : ParamsDoc) (qd : ProtosDoc) (n : Val),
      (∀ p ∈ optList pd.parameters, ∀ pr',
        Rec.truthyGet p "field_name" = some n →
        Rec.truthyGet p "protocol_reference" = some pr' → False) →
      (∀ gn' ep, BidirErr.inconsistent n gn' ep ∉ bidirErrors pd qd) ∧
      (∀ gn', BidirErr.noGroup n gn' ∉ bidirErrors pd qd)) := by
  constructor
  · intro pd qd g gn gr hg hgn hgr huniqG hex hnone
    have hlkG : dictLookup (buildProtocolToParam (optList qd.protocol_groups)) gn = some gr := by
      unfold buildProtocolToParam buildRefMap
      exact refMapFold_lookup_eq _ _ gn gr _ [] huniqG ⟨g, hg, hgn, hgr⟩
    have hmemG := dictLookup_mem _ _ _ hlkG
    have hlkNone : dictLookup (buildParamToProtocol (optList pd.parameters)) gr = none := by
      unfold buildParamToProtocol buildRefMap
      rw [refMapFold_lookup_no "field_name" "protocol_reference" gr _ [] hnone]
      rfl
    have hin : BidirErr.groupParamMissing gn gr ∈ bidirErrors pd qd := by
      unfold bidirErrors
      exact List.mem_append_right _
        (bidirOrphanErrs_mem_missing _ _ gn gr hmemG hlkNone)
    obtain ⟨hfst, hsnd⟩ := bidirErrors_reported pd qd _ hin
    exact ⟨hin, hfst, hsnd⟩
  · intro pd qd n hnone
    have hkey : ∀ (e : BidirErr), e ∈ bidirErrors pd qd →
        (∀ gn' ep, e ≠ BidirErr.inconsistent n gn' ep) ∧
        (∀ gn', e ≠ BidirErr.noGroup n gn') := by
      intro e he
      unfold bidirErrors at he
      rcases List.mem_append.1 he with hm | hm
      · obtain ⟨kv, hkv, hsh⟩ := mem_bidirForwardErrs _ _ e hm
        have hkvsrc := refMapFold_mem "field_name" "protocol_reference"
          (optList pd.parameters) [] kv.1 kv.2 hkv
        rcases hkvsrc with hkv0 | ⟨r, hr, hkf, hvf⟩
        · cases hkv0
        · have hkn : kv.1 ≠ n := by
            intro hc
            rw [hc] at hkf
            exact hnone r hr kv.2 hkf hvf
          constructor
          · intro gn' ep hc
            rcases hsh with ⟨ep', hep⟩ | hep
            · rw [hc] at hep
              exact hkn (by injection hep with h1 h2 h3; exact h1.symm)
            · rw [hc] at hep
              cases hep
          · intro gn' hc
            rcases hsh with ⟨ep', hep⟩ | hep
            · rw [hc] at hep
              cases hep
            · rw [hc] at hep
              exact hkn (by injection hep with h1 h2; exact h1.symm)
      · rcases mem_bidirOrphanErrs _ _ e hm with ⟨k, v, hkv⟩ | ⟨k, v, hkv⟩
        · subst hkv
          exact ⟨fun gn' ep hc => BidirErr.noConfusion hc, fun gn' hc => BidirErr.noConfusion hc⟩
        · subst hkv
          exact ⟨fun gn' ep hc => BidirErr.noConfusion hc, fun gn' hc => BidirErr.noConfusion hc⟩
    constructor
    · intro gn' ep hc
      exact (hkey _ hc).1 gn' ep rfl
    · intro gn' hc
      exact (hkey _ hc).2 gn' rfl

/-- A group whose parameter_reference names the reference-free
`c10Param`, with a unique group name. -/
def c10wGroup : Rec :=
  [("group_name", Val.VStr "SOLO_protocols"), ("parameter_reference", Val.VStr "Engine Speed")]

/-- Witness protocols document for C10. -/
def c10wProtosDoc : ProtosDoc := ⟨some [c10wGroup], none⟩

/-- Witness for C10 (amended): with a single uniquely-named group naming
the reference-free parameter, the parameter-does-not-exist error is
reported, the check is invalid, and no parameter-side error names Engine
Speed. -/
theorem c10_truthy_filtering_witness :
    BidirErr.groupParamMissing (Val.VStr "SOLO_protocols") (Val.VStr "Engine Speed") ∈
      bidirErrors c10ParamsDoc c10wProtosDoc ∧
    (validate_bidirectional_consistency (.parsed c10ParamsDoc) (.parsed c10wProtosDoc)).1 = false ∧
    (∀ gn' ep, BidirErr.inconsistent (Val.VStr "Engine Speed") gn' ep ∉
      bidirErrors c10ParamsDoc c10wProtosDoc) := by
  have hnone : ∀ p ∈ optList c10ParamsDoc.parameters, ∀ pr',
      Rec.truthyGet p "field_name" = some (Val.VStr "Engine Speed") →
      Rec.truthyGet p "protocol_reference" = some pr' → False := by
    intro p hp pr' hfn hpr
    have hpeq : p = c10Param := by simpa [c10ParamsDoc, optList] using hp
    subst hpeq
    have h : (none : Option Val) = some pr' :=
      (show Rec.truthyGet c10Param "protocol_reference" = none from rfl).symm.trans hpr
    cases h
  have hmain := (c10_truthy_filtering).1 c10ParamsDoc c10wProtosDoc c10wGroup
    (Val.VStr "SOLO_protocols") (Val.VStr "Engine Speed")
    (List.mem_cons_self _ _) rfl rfl
    (by
      intro g' hg' gr' hgn' hgr'
      have hgeq : g' = c10wGroup := by simpa [c10wProtosDoc, optList] using hg'
      subst hgeq
      have h := hgr'.symm.trans
        (show Rec.truthyGet c10wGroup "parameter_reference" =
          some (Val.VStr "Engine Speed") from rfl)
      injection h)
    ⟨c10Param, List.mem_cons_self _ _, rfl⟩ hnone
  have hside := (c10_truthy_filtering).2 c10ParamsDoc c10wProtosDoc
    (Val.VStr "Engine Speed") hnone
  exact ⟨hmain.1, hmain.2.1, hside.1⟩

/-! ## C7: materialization round trip -/

lemma schemaRecErrsFrom_nil (name : String) (ok : Rec → Bool) :
    ∀ (l : List Rec) (i : Nat), schemaRecErrsFrom name ok i l = [] → ∀ r ∈ l, ok r = true := by
  intro l
  induction l with
  | nil => intro i _ r hr; cases hr
  | cons r0 rest ih =>
    intro i h r hr
    simp only [schemaRecErrsFrom] at h
    rcases List.append_eq_nil.1 h with ⟨h1, h2⟩
    rcases List.mem_cons.1 hr with heq | hm
    · subst heq
      by_cases hok : ok r = true
      · exact hok
      · simp [hok] at h1
    · exact ih (i+1) h2 r hm

/-- A schema-valid parameters document has all four lists present with
every record well-typed. -/
lemma schema_check_parameters_ok (d : ParamsDoc)
    (h : (schema_check_parameters d).1 = true) :
    (∀ p ∈ optList d.parameters, schemaParamOk p = true) ∧
    (∀ b ∈ optList d.breadcrumb_fields, schemaBreadcrumbOk b = true) ∧
    (∀ b ∈ optList d.vg5_fields, schemaVg5Ok b = true) ∧
    (∀ a ∈ optList d.abbr_metrics, schemaAbbrOk a = true) := by
  simp only [schema_check_parameters] at h
  have herrs := List.isEmpty_iff.1 h
  rcases List.append_eq_nil.1 herrs with ⟨e123, e4⟩
  rcases List.append_eq_nil.1 e123 with ⟨e12, e3⟩
  rcases List.append_eq_nil.1 e12 with ⟨e1, e2⟩
  refine ⟨?_, ?_, ?_, ?_⟩
  · cases hl : d.parameters with
    | none => rw [hl] at e1; cases e1
    | some l =>
      rw [hl] at e1
      have := schemaRecErrsFrom_nil _ _ l 0 e1
      simpa [optList, hl] using this
  · cases hl : d.breadcrumb_fields with
    | none => rw [hl] at e2; cases e2
    | some l =>
      rw [hl] at e2
      have := schemaRecErrsFrom_nil _ _ l 0 e2
      simpa [optList, hl] using this
  · cases hl : d.vg5_fields with
    | none => rw [hl] at e3; cases e3
    | some l =>
      rw [hl] at e3
      have := schemaRecErrsFrom_nil _ _ l 0 e3
      simpa [optList, hl] using this
  · cases hl : d.abbr_metrics with
    | none => rw [hl] at e4; cases e4
    | some l =>
      rw [hl] at e4
      have := schemaRecErrsFrom_nil _ _ l 0 e4
      simpa [optList, hl] using this

/-- A schema-valid protocols document has both lists present with every
record well-typed. -/
lemma schema_check_protocols_ok (d : ProtosDoc)
    (h : (schema_check_protocols d).1 = true) :
    (∀ g ∈ optList d.protocol_groups, schemaGroupOk g = true) ∧
    (∀ p ∈ optList d.protocols, schemaProtoOk p = true) := by
  simp only [schema_check_protocols] at h
  have herrs := List.isEmpty_iff.1 h
  rcases List.append_eq_nil.1 herrs with ⟨e1, e2⟩
  constructor
  · cases hl : d.protocol_groups with
    | none => rw [hl] at e1; cases e1
    | some l =>
      rw [hl] at e1
      have := schemaRecErrsFrom_nil _ _ l 0 e1
      simpa [optList, hl] using this
  · cases hl : d.protocols with
    | none => rw [hl] at e2; cases e2
    | some l =>
      rw [hl] at e2
      have := schemaRecErrsFrom_nil _ _ l 0 e2
      simpa [optList, hl] using this

lemma reqInt_some (r : Rec) (k : String) (h : reqInt r k = true) :
    ∃ n : Int, Rec.get r k = some (.VInt n) := by
  unfold reqInt at h
  cases hv : Rec.get r k with
  | none => rw [hv] at h; cases h
  | some v =>
    cases v with
    | VStr s => rw [hv] at h; cases h
    | VInt n => exact ⟨n, rfl⟩

lemma reqStr_some (r : Rec) (k : String) (h : reqStr r k = true) :
    ∃ s : String, Rec.get r k = some (.VStr s) := by
  unfold reqStr at h
  cases hv : Rec.get r k with
  | none => rw [hv] at h; cases h
  | some v =>
    cases v with
    | VStr s => exact ⟨s, rfl⟩
    | VInt n => rw [hv] at h; cases h

/-- A valid parameters stage has an empty, exception-free body. -/
lemma params_valid_body_nil (d : ParamsDoc)
    (h : (validate_parameters_business_logic (.parsed d)).1 = true) :
    paramsBodyErrors d = .ok [] := by
  cases hb : paramsBodyErrors d with
  | error e => simp [validate_parameters_business_logic, hb] at h
  | ok errs =>
    have hemp : errs.isEmpty = true := by
      simpa [validate_parameters_business_logic, hb] using h
    rw [List.isEmpty_iff.1 hemp]

/-- A valid protocols stage has an empty, exception-free body. -/
lemma protos_valid_body_nil (d : ProtosDoc)
    (h : (validate_protocols_business_logic (.parsed d)).1 = true) :
    protosBodyErrors d = .ok [] := by
  cases hb : protosBodyErrors d with
  | error e => simp [validate_protocols_business_logic, hb] at h
  | ok errs =>
    have hemp : errs.isEmpty = true := by
      simpa [validate_protocols_business_logic, hb] using h
    rw [List.isEmpty_iff.1 hemp]

/-- A valid cross-reference check has an empty error accumulation. -/
lemma crossRef_valid_nil (pd : ParamsDoc) (qd : ProtosDoc)
    (h : (validate_cross_references (.parsed pd) (.parsed qd)).1 = true) :
    crossRefErrors pd qd = [] := by
  simp only [validate_cross_references] at h
  cases hl : crossRefErrors pd qd with
  | nil => rfl
  | cons a l => rw [hl] at h; cases h

/-- An error-free dangling scan means every present foreign key is owned. -/
lemma danglingFrom_nil (fk : String) (owners : List Val) (mk : Nat → Val → XRefErr) :
    ∀ (l : List Rec) (i : Nat), danglingFrom fk owners mk i l = [] →
      ∀ r ∈ l, ∀ v, Rec.get r fk = some v → v ∈ owners := by
  intro l
  induction l with
  | nil => intro i _ r hr; cases hr
  | cons r0 rest ih =>
    intro i h r hr v hv
    simp only [danglingFrom] at h
    rcases List.append_eq_nil.1 h with ⟨h1, h2⟩
    rcases List.mem_cons.1 hr with heq | hm
    · subst heq
      rw [hv] at h1
      by_cases hin : v ∈ owners
      · exact hin
      · simp [hin] at h1
    · exact ih (i+1) h2 r hm v hv

/-- The parameters-table row produced from a well-typed record. -/
def paramRowOf (p : Rec) : ParamRow :=
  { id := match Rec.get p "id" with | some (.VInt n) => n | _ => 0,
    field_name := (Rec.get p "field_name").getD (.VStr ""),
    reserved_enum_val := Rec.get p "reserved_enum_val",
    description := Rec.get p "description",
    unit := Rec.get p "unit",
    reason_added := Rec.get p "reason_added",
    protobuf_field := Rec.get p "protobuf_field",
    protocol_reference := Rec.get p "protocol_reference" }

/-- The protocol-groups-table row produced from a well-typed record. -/
def pgRowOf (g : Rec) : PgRow :=
  { id := match Rec.get g "id" with | some (.VInt n) => n | _ => 0,
    group_name := (Rec.get g "group_name").getD (.VStr ""),
    description := Rec.get g "description",
    parameter_reference := Rec.get g "parameter_reference" }

lemma nextParamId_ok (tbl : List ParamRow) (p : Rec) (n : Int)
    (hid : Rec.get p "id" = some (.VInt n))
    (hfresh : ∀ row ∈ tbl, row.id ≠ n) :
    nextParamId tbl p = .ok n := by
  unfold nextParamId
  rw [hid]
  have hany : (tbl.any fun r => r.id = n) = false := by
    rw [List.any_eq_false]
    intro row hrow
    simpa using hfresh row hrow
  simp [hany]

lemma insertParameter_ok (tbl : List ParamRow) (p : Rec) (n : Int) (fn : Val)
    (hid : Rec.get p "id" = some (.VInt n))
    (hfn : Rec.get p "field_name" = some fn)
    (hfreshId : ∀ row ∈ tbl, row.id ≠ n)
    (hfreshName : ∀ row ∈ tbl, row.field_name ≠ fn) :
    insertParameter tbl p = .ok (tbl ++ [paramRowOf p]) := by
  unfold insertParameter
  rw [nextParamId_ok tbl p n hid hfreshId]
  have hany : (tbl.any fun r => r.field_name = fn) = false := by
    rw [List.any_eq_false]
    intro row hrow
    simpa using hfreshName row hrow
  simp only [Bind.bind, Except.bind, hfn, hany, Bool.false_eq_true, if_false,
    Pure.pure, Except.pure, paramRowOf, hid, Option.getD]

lemma nextGroupId_ok (tbl : List PgRow) (g : Rec) (n : Int)
    (hid : Rec.get g "id" = some (.VInt n))
    (hfresh : ∀ row ∈ tbl, row.id ≠ n) :
    nextGroupId tbl g = .ok n := by
  unfold nextGroupId
  rw [hid]
  have hany : (tbl.any fun r => r.id = n) = false := by
    rw [List.any_eq_false]
    intro row hrow
    simpa using hfresh row hrow
  simp [hany]

lemma insertProtocolGroup_ok (tbl : List PgRow) (g : Rec) (n : Int) (gn : Val)
    (hid : Rec.get g "id" = some (.VInt n))
    (hgn : Rec.get g "group_name" = some gn)
    (hfreshId : ∀ row ∈ tbl, row.id ≠ n)
    (hfreshName : ∀ row ∈ tbl, row.group_name ≠ gn) :
    insertProtocolGroup tbl g = .ok (tbl ++ [pgRowOf g]) := by
  unfold insertProtocolGroup
  rw [nextGroupId_ok tbl g n hid hfreshId]
  have hany : (tbl.any fun r => r.group_name = gn) = false := by
    rw [List.any_eq_false]
    intro row hrow
    simpa using hfreshName row hrow
  simp only [Bind.bind, Except.bind, hgn, hany, Bool.false_eq_true, if_false,
    Pure.pure, Except.pure, pgRowOf, hid, Option.getD]

lemma paramRowOf_id (p : Rec) (n : Int) (hid : Rec.get p "id" = some (.VInt n)) :
    (paramRowOf p).id = n := by
  simp [paramRowOf, hid]

lemma paramRowOf_field_name (p : Rec) (fn : Val) (hfn : Rec.get p "field_name" = some fn) :
    (paramRowOf p).field_name = fn := by
  simp [paramRowOf, hfn]

lemma pgRowOf_id (g : Rec) (n : Int) (hid : Rec.get g "id" = some (.VInt n)) :
    (pgRowOf g).id = n := by
  simp [pgRowOf, hid]

lemma pgRowOf_group_name (g : Rec) (gn : Val) (hgn : Rec.get g "group_name" = some gn) :
    (pgRowOf g).group_name = gn := by
  simp [pgRowOf, hgn]

/-- A tail of a count-bounded mapped list stays count-bounded, and the
head value disappears from the tail. -/
lemma count_map_tail {α : Type} (f : Rec → Option α) [DecidableEq α] (p : Rec) (rest : List Rec)
    (hc : ∀ ov : Option α, ((p :: rest).map f).count ov ≤ 1) :
    (∀ ov : Option α, (rest.map f).count ov ≤ 1) ∧ (rest.map f).count (f p) = 0 := by
  constructor
  · intro ov
    have := hc ov
    rw [List.map_cons, List.count_cons] at this
    omega
  · have := hc (f p)
    rw [List.map_cons, List.count_cons] at this
    simp at this
    omega

/-- The whole parameters insert loop on unique, well-typed records. -/
lemma insertParamList_ok :
    ∀ (ps : List Rec) (tbl : List ParamRow),
      (∀ p ∈ ps, ∃ n : Int, Rec.get p "id" = some (.VInt n)) →
      (∀ p ∈ ps, ∃ fn, Rec.get p "field_name" = some fn) →
      (∀ ov, ((ps.map (fun r => Rec.get r "id")).count ov ≤ 1)) →
      (∀ ov, ((ps.map (fun r => Rec.get r "field_name")).count ov ≤ 1)) →
      (∀ p ∈ ps, ∀ row ∈ tbl, Rec.get p "id" ≠ some (.VInt row.id)) →
      (∀ p ∈ ps, ∀ row ∈ tbl, Rec.get p "field_name" ≠ some row.field_name) →
      insertParamList tbl ps = .ok (tbl ++ ps.map paramRowOf) := by
  intro ps
  induction ps with
  | nil => intro tbl _ _ _ _ _ _; simp [insertParamList]
  | cons p rest ih =>
    intro tbl hid hfn hcid hcfn hfid hffn
    obtain ⟨n, hn⟩ := hid p (List.mem_cons_self _ _)
    obtain ⟨fn, hf⟩ := hfn p (List.mem_cons_self _ _)
    have hfreshId : ∀ row ∈ tbl, row.id ≠ n := by
      intro row hrow hc
      exact hfid p (List.mem_cons_self _ _) row hrow (by rw [hn, hc])
    have hfreshName : ∀ row ∈ tbl, row.field_name ≠ fn := by
      intro row hrow hc
      exact hffn p (List.mem_cons_self _ _) row hrow (by rw [hf, hc])
    have hstep := insertParameter_ok tbl p n fn hn hf hfreshId hfreshName
    obtain ⟨hcid', hczid⟩ := count_map_tail (fun r => Rec.get r "id") p rest hcid
    obtain ⟨hcfn', hczfn⟩ := count_map_tail (fun r => Rec.get r "field_name") p rest hcfn
    have hrestIdNe : ∀ p' ∈ rest, Rec.get p' "id" ≠ some (.VInt n) := by
      intro p' hp' hc
      have hmem : (some (Val.VInt n) : Option Val) ∈ rest.map (fun r => Rec.get r "id") :=
        List.mem_map.2 ⟨p', hp', hc⟩
      have := List.count_pos_iff_mem.2 hmem
      rw [hn] at hczid
      omega
    have hrestFnNe : ∀ p' ∈ rest, Rec.get p' "field_name" ≠ some fn := by
      intro p' hp' hc
      have hmem : (some fn : Option Val) ∈ rest.map (fun r => Rec.get r "field_name") :=
        List.mem_map.2 ⟨p', hp', hc⟩
      have := List.count_pos_iff_mem.2 hmem
      rw [hf] at hczfn
      omega
    have htail := ih (tbl ++ [paramRowOf p])
      (fun p' hp' => hid p' (List.mem_cons_of_mem _ hp'))
      (fun p' hp' => hfn p' (List.mem_cons_of_mem _ hp'))
      hcid' hcfn'
      (by
        intro p' hp' row hrow
        rcases List.mem_append.1 hrow with hr | hr
        · exact hfid p' (List.mem_cons_of_mem _ hp') row hr
        · have hreq : row = paramRowOf p := List.mem_singleton.1 hr
          subst hreq
          rw [paramRowOf_id p n hn]
          exact hrestIdNe p' hp')
      (by
        intro p' hp' row hrow
        rcases List.mem_append.1 hrow with hr | hr
        · exact hffn p' (List.mem_cons_of_mem _ hp') row hr
        · have hreq : row = paramRowOf p := List.mem_singleton.1 hr
          subst hreq
          rw [paramRowOf_field_name p fn hf]
          exact hrestFnNe p' hp')
    simp only [insertParamList, Bind.bind, Except.bind, hstep]
    rw [htail]
    simp [List.append_assoc]

/-- The whole protocol-groups insert loop on unique, well-typed records. -/
lemma insertPgList_ok :
    ∀ (gs : List Rec) (tbl : List PgRow),
      (∀ g ∈ gs, ∃ n : Int, Rec.get g "id" = some (.VInt n)) →
      (∀ g ∈ gs, ∃ gn, Rec.get g "group_name" = some gn) →
      (∀ ov, ((gs.map (fun r => Rec.get r "id")).count ov ≤ 1)) →
      (∀ ov, ((gs.map (fun r => Rec.get r "group_name")).count ov ≤ 1)) →
      (∀ g ∈ gs, ∀ row ∈ tbl, Rec.get g "id" ≠ some (.VInt row.id)) →
      (∀ g ∈ gs, ∀ row ∈ tbl, Rec.get g "group_name" ≠ some row.group_name) →
      insertPgList tbl gs = .ok (tbl ++ gs.map pgRowOf) := by
  intro gs
  induction gs with
  | nil => intro tbl _ _ _ _ _ _; simp [insertPgList]
  | cons g rest ih =>
    intro tbl hid hgn hcid hcgn hfid hfgn
    obtain ⟨n, hn⟩ := hid g (List.mem_cons_self _ _)
    obtain ⟨gn, hg⟩ := hgn g (List.mem_cons_self _ _)
    have hfreshId : ∀ row ∈ tbl, row.id ≠ n := by
      intro row hrow hc
      exact hfid g (List.mem_cons_self _ _) row hrow (by rw [hn, hc])
    have hfreshName : ∀ row ∈ tbl, row.group_name ≠ gn := by
      intro row hrow hc
      exact hfgn g (List.mem_cons_self _ _) row hrow (by rw [hg, hc])
    have hstep := insertProtocolGroup_ok tbl g n gn hn hg hfreshId hfreshName
    obtain ⟨hcid', hczid⟩ := count_map_tail (fun r => Rec.get r "id") g rest hcid
    obtain ⟨hcgn', hczgn⟩ := count_map_tail (fun r => Rec.get r "group_name") g rest hcgn
    have hrestIdNe : ∀ g' ∈ rest, Rec.get g' "id" ≠ some (.VInt n) := by
      intro g' hg' hc
      have hmem : (some (Val.VInt n) : Option Val) ∈ rest.map (fun r => Rec.get r "id") :=
        List.mem_map.2 ⟨g', hg', hc⟩
      have := List.count_pos_iff_mem.2 hmem
      rw [hn] at hczid
      omega
    have hrestGnNe : ∀ g' ∈ rest, Rec.get g' "group_name" ≠ some gn := by
      intro g' hg' hc
      have hmem : (some gn : Option Val) ∈ rest.map (fun r => Rec.get r "group_name") :=
        List.mem_map.2 ⟨g', hg', hc⟩
      have := List.count_pos_iff_mem.2 hmem
      rw [hg] at hczgn
      omega
    have htail := ih (tbl ++ [pgRowOf g])
      (fun g' hg' => hid g' (List.mem_cons_of_mem _ hg'))
      (fun g' hg' => hgn g' (List.mem_cons_of_mem _ hg'))
      hcid' hcgn'
      (by
        intro g' hg' row hrow
        rcases List.mem_append.1 hrow with hr | hr
        · exact hfid g' (List.mem_cons_of_mem _ hg') row hr
        · have hreq : row = pgRowOf g := List.mem_singleton.1 hr
          subst hreq
          rw [pgRowOf_id g n hn]
          exact hrestIdNe g' hg')
      (by
        intro g' hg' row hrow
        rcases List.mem_append.1 hrow with hr | hr
        · exact hfgn g' (List.mem_cons_of_mem _ hg') row hr
        · have hreq : row = pgRowOf g := List.mem_singleton.1 hr
          subst hreq
          rw [pgRowOf_group_name g gn hg]
          exact hrestGnNe g' hg')
    simp only [insertPgList, Bind.bind, Except.bind, hstep]
    rw [htail]
    simp [List.append_assoc]

/-- The breadcrumb rows inserted after `n` existing rows. -/
def bcRowsFrom (n : Nat) : List Rec → List BcRow
  | [] => []
  | b :: rest =>
    { id := Int.ofNat n + 1, parameter_id := Rec.get b "parameter_id",
      breadcrumb_link := Rec.get b "breadcrumb_link", note := Rec.get b "note" } ::
    bcRowsFrom (n+1) rest

/-- The VG5 rows inserted after `n` existing rows. -/
def vg5RowsFrom (n : Nat) : List Rec → List Vg5Row
  | [] => []
  | b :: rest =>
    { id := Int.ofNat n + 1, parameter_id := Rec.get b "parameter_id",
      vg5_link := Rec.get b "vg5_link" } :: vg5RowsFrom (n+1) rest

/-- The abbreviation-metric rows inserted after `n` existing rows. -/
def abbrRowsFrom (n : Nat) : List Rec → List AbbrRow
  | [] => []
  | a :: rest =>
    { id := Int.ofNat n + 1, parameter_id := Rec.get a "parameter_id",
      abbr_value := Rec.get a "abbr_value", abbr_link := Rec.get a "abbr_link",
      metrics_link := Rec.get a "metrics_link" } :: abbrRowsFrom (n+1) rest

/-- The protocol rows inserted after `n` existing rows. -/
def protoRowsFrom (n : Nat) : List Rec → List ProtoRow
  | [] => []
  | p :: rest =>
    { id := Int.ofNat n + 1, group_id := Rec.get p "group_id",
      abbr := Rec.get p "abbr", protocol_standard := Rec.get p "protocol_standard",
      pgn_pid := Rec.get p "pgn_pid", spn := Rec.get p "spn",
      precision := Rec.get p "precision", spec_range := Rec.get p "spec_range",
      max_valid_val := Rec.get p "max_valid_val", units := Rec.get p "units",
      description := Rec.get p "description", states := Rec.get p "states" } ::
    protoRowsFrom (n+1) rest

lemma insertBcList_eq : ∀ (l : List Rec) (tbl : List BcRow),
    insertBcList tbl l = tbl ++ bcRowsFrom tbl.length l := by
  intro l
  induction l with
  | nil => intro tbl; simp [insertBcList, bcRowsFrom]
  | cons b rest ih =>
    intro tbl
    simp only [insertBcList, bcRowsFrom]
    rw [ih]
    simp [List.append_assoc]

lemma insertVg5List_eq : ∀ (l : List Rec) (tbl : List Vg5Row),
    insertVg5List tbl l = tbl ++ vg5RowsFrom tbl.length l := by
  intro l
  induction l with
  | nil => intro tbl; simp [insertVg5List, vg5RowsFrom]
  | cons b rest ih =>
    intro tbl
    simp only [insertVg5List, vg5RowsFrom]
    rw [ih]
    simp [List.append_assoc]

lemma insertAbbrList_eq : ∀ (l : List Rec) (tbl : List AbbrRow),
    insertAbbrList tbl l = tbl ++ abbrRowsFrom tbl.length l := by
  intro l
  induction l with
  | nil => intro tbl; simp [insertAbbrList, abbrRowsFrom]
  | cons a rest ih =>
    intro tbl
    simp only [insertAbbrList, abbrRowsFrom]
    rw [ih]
    simp [List.append_assoc]

lemma insertProtoList_eq : ∀ (l : List Rec) (tbl : List ProtoRow),
    insertProtoList tbl l = tbl ++ protoRowsFrom tbl.length l := by
  intro l
  induction l with
  | nil => intro tbl; simp [insertProtoList, protoRowsFrom]
  | cons p rest ih =>
    intro tbl
    simp only [insertProtoList, protoRowsFrom]
    rw [ih]
    simp [List.append_assoc]

lemma bcRowsFrom_map_pid : ∀ (l : List Rec) (n : Nat),
    (bcRowsFrom n l).map (fun r => r.parameter_id) =
      l.map (fun b => Rec.get b "parameter_id") := by
  intro l
  induction l with
  | nil => intro n; rfl
  | cons b rest ih => intro n; simp [bcRowsFrom, ih]

lemma vg5RowsFrom_map_pid : ∀ (l : List Rec) (n : Nat),
    (vg5RowsFrom n l).map (fun r => r.parameter_id) =
      l.map (fun b => Rec.get b "parameter_id") := by
  intro l
  induction l with
  | nil => intro n; rfl
  | cons b rest ih => intro n; simp [vg5RowsFrom, ih]

lemma abbrRowsFrom_map_pid : ∀ (l : List Rec) (n : Nat),
    (abbrRowsFrom n l).map (fun r => r.parameter_id) =
      l.map (fun a => Rec.get a "parameter_id") := by
  intro l
  induction l with
  | nil => intro n; rfl
  | cons a rest ih => intro n; simp [abbrRowsFrom, ih]

lemma protoRowsFrom_map_gid : ∀ (l : List Rec) (n : Nat),
    (protoRowsFrom n l).map (fun r => r.group_id) =
      l.map (fun p => Rec.get p "group_id") := by
  intro l
  induction l with
  | nil => intro n; rfl
  | cons p rest ih => intro n; simp [protoRowsFrom, ih]

lemma mem_bcRowsFrom : ∀ (l : List Rec) (n : Nat) (r : BcRow), r ∈ bcRowsFrom n l →
    ∃ b ∈ l, r.parameter_id = Rec.get b "parameter_id" := by
  intro l
  induction l with
  | nil => intro n r h; cases h
  | cons b rest ih =>
    intro n r h
    rcases List.mem_cons.1 h with heq | hm
    · exact ⟨b, List.mem_cons_self _ _, by rw [heq]⟩
    · obtain ⟨b', hb', he⟩ := ih (n+1) r hm
      exact ⟨b', List.mem_cons_of_mem _ hb', he⟩

lemma mem_vg5RowsFrom : ∀ (l : List Rec) (n : Nat) (r : Vg5Row), r ∈ vg5RowsFrom n l →
    ∃ b ∈ l, r.parameter_id = Rec.get b "parameter_id" := by
  intro l
  induction l with
  | nil => intro n r h; cases h
  | cons b rest ih =>
    intro n r h
    rcases List.mem_cons.1 h with heq | hm
    · exact ⟨b, List.mem_cons_self _ _, by rw [heq]⟩
    · obtain ⟨b', hb', he⟩ := ih (n+1) r hm
      exact ⟨b', List.mem_cons_of_mem _ hb', he⟩

lemma mem_abbrRowsFrom : ∀ (l : List Rec) (n : Nat) (r : AbbrRow), r ∈ abbrRowsFrom n l →
    ∃ a ∈ l, r.parameter_id = Rec.get a "parameter_id" := by
  intro l
  induction l with
  | nil => intro n r h; cases h
  | cons a rest ih =>
    intro n r h
    rcases List.mem_cons.1 h with heq | hm
    · exact ⟨a, List.mem_cons_self _ _, by rw [heq]⟩
    · obtain ⟨a', ha', he⟩ := ih (n+1) r hm
      exact ⟨a', List.mem_cons_of_mem _ ha', he⟩

lemma mem_protoRowsFrom : ∀ (l : List Rec) (n : Nat) (r : ProtoRow), r ∈ protoRowsFrom n l →
    ∃ p ∈ l, r.group_id = Rec.get p "group_id" := by
  intro l
  induction l with
  | nil => intro n r h; cases h
  | cons p rest ih =>
    intro n r h
    rcases List.mem_cons.1 h with heq | hm
    · exact ⟨p, List.mem_cons_self _ _, by rw [heq]⟩
    · obtain ⟨p', hp', he⟩ := ih (n+1) r hm
      exact ⟨p', List.mem_cons_of_mem _ hp', he⟩

lemma schemaParamOk_fields (p : Rec) (h : schemaParamOk p = true) :
    (∃ n : Int, Rec.get p "id" = some (.VInt n)) ∧
    (∃ s, Rec.get p "field_name" = some (.VStr s)) := by
  unfold schemaParamOk at h
  simp only [Bool.and_eq_true] at h
  exact ⟨reqInt_some _ _ h.1.1.1.1.1.1.1, reqStr_some _ _ h.1.1.1.1.1.1.2⟩

lemma schemaGroupOk_fields (g : Rec) (h : schemaGroupOk g = true) :
    (∃ n : Int, Rec.get g "id" = some (.VInt n)) ∧
    (∃ s, Rec.get g "group_name" = some (.VStr s)) := by
  unfold schemaGroupOk at h
  simp only [Bool.and_eq_true] at h
  exact ⟨reqInt_some _ _ h.1.1.1, reqStr_some _ _ h.1.1.2⟩

lemma map_congr_mem {α β : Type} (l : List α) (f g : α → β)
    (h : ∀ a ∈ l, f a = g a) : l.map f = l.map g := by
  induction l with
  | nil => rfl
  | cons a rest ih =>
    simp only [List.map_cons]
    rw [h a (List.mem_cons_self _ _), ih (fun a' ha' => h a' (List.mem_cons_of_mem _ ha'))]

/-- **C7.** For a validated document pair (schema, business rules,
cross-references and bidirectional consistency all pass) with N
parameters and M protocol entries, materialization succeeds and the
artifact has exactly N parameter rows and M protocol rows, rows inserted
in document order with source integer ids preserved in the owning tables,
and every foreign key value in the artifact resolves to an existing
owning row. -/
theorem c7_materialization_round_trip (pd : ParamsDoc) (qd : ProtosDoc)
    (hschemaP : (schema_check_parameters pd).1 = true)
    (hschemaQ : (schema_check_protocols qd).1 = true)
    (hcustomP : (validate_parameters_business_logic (.parsed pd)).1 = true)
    (hcustomQ : (validate_protocols_business_logic (.parsed qd)).1 = true)
    (hxref : (validate_cross_references (.parsed pd) (.parsed qd)).1 = true)
    (hbidir : (validate_bidirectional_consistency (.parsed pd) (.parsed qd)).1 = true) :
    ∃ db, generate_database pd qd = .ok db ∧
      db.parameters.length = (optList pd.parameters).length ∧
      db.protocols.length = (optList qd.protocols).length ∧
      db.parameters.map (fun r => some (Val.VInt r.id)) =
        (optList pd.parameters).map (fun r => Rec.get r "id") ∧
      db.protocol_groups.map (fun r => some (Val.VInt r.id)) =
        (optList qd.protocol_groups).map (fun r => Rec.get r "id") ∧
      db.breadcrumb_fields.map (fun r => r.parameter_id) =
        (optList pd.breadcrumb_fields).map (fun r => Rec.get r "parameter_id") ∧
      db.vg5_fields.map (fun r => r.parameter_id) =
        (optList pd.vg5_fields).map (fun r => Rec.get r "parameter_id") ∧
      db.abbr_metrics.map (fun r => r.parameter_id) =
        (optList pd.abbr_metrics).map (fun r => Rec.get r "parameter_id") ∧
      db.protocols.map (fun r => r.group_id) =
        (optList qd.protocols).map (fun r => Rec.get r "group_id") ∧
      (∀ r ∈ db.breadcrumb_fields, ∀ v, r.parameter_id = some v →
        ∃ pr ∈ db.parameters, Val.VInt pr.id = v) ∧
      (∀ r ∈ db.vg5_fields, ∀ v, r.parameter_id = some v →
        ∃ pr ∈ db.parameters, Val.VInt pr.id = v) ∧
      (∀ r ∈ db.abbr_metrics, ∀ v, r.parameter_id = some v →
        ∃ pr ∈ db.parameters, Val.VInt pr.id = v) ∧
      (∀ r ∈ db.protocols, ∀ v, r.group_id = some v →
        ∃ g ∈ db.protocol_groups, Val.VInt g.id = v) := by
  obtain ⟨hsp, hsb, hsv, hsa⟩ := schema_check_parameters_ok pd hschemaP
  obtain ⟨hsg, hspr⟩ := schema_check_protocols_ok qd hschemaQ
  have hbodyP := params_valid_body_nil pd hcustomP
  have hbodyQ := protos_valid_body_nil qd hcustomQ
  have hcid : ∀ ov, ((optList pd.parameters).map (fun r => Rec.get r "id")).count ov ≤ 1 := by
    intro ov
    have h := paramsBody_count_dupParamId pd [] ov hbodyP
    simp only [List.count_nil] at h
    omega
  have hcfn : ∀ ov, ((optList pd.parameters).map (fun r => Rec.get r "field_name")).count ov ≤ 1 := by
    intro ov
    have h := paramsBody_count_dupParamName pd [] ov hbodyP
    simp only [List.count_nil] at h
    omega
  have hgid : ∀ ov, ((optList qd.protocol_groups).map (fun r => Rec.get r "id")).count ov ≤ 1 := by
    intro ov
    have h := protosBody_count_dupGroupId qd [] ov hbodyQ
    simp only [List.count_nil] at h
    omega
  have hggn : ∀ ov, ((optList qd.protocol_groups).map (fun r => Rec.get r "group_name")).count ov ≤ 1 := by
    intro ov
    have h := protosBody_count_dupGroupName qd [] ov hbodyQ
    simp only [List.count_nil] at h
    omega
  have hidP : ∀ p ∈ optList pd.parameters, ∃ n : Int, Rec.get p "id" = some (.VInt n) :=
    fun p hp => (schemaParamOk_fields p (hsp p hp)).1
  have hfnP : ∀ p ∈ optList pd.parameters, ∃ fn, Rec.get p "field_name" = some fn := by
    intro p hp
    obtain ⟨s, hs⟩ := (schemaParamOk_fields p (hsp p hp)).2
    exact ⟨.VStr s, hs⟩
  have hidG : ∀ g ∈ optList qd.protocol_groups, ∃ n : Int, Rec.get g "id" = some (.VInt n) :=
    fun g hg => (schemaGroupOk_fields g (hsg g hg)).1
  have hgnG : ∀ g ∈ optList qd.protocol_groups, ∃ gn, Rec.get g "group_name" = some gn := by
    intro g hg
    obtain ⟨s, hs⟩ := (schemaGroupOk_fields g (hsg g hg)).2
    exact ⟨.VStr s, hs⟩
  have hparams := insertParamList_ok (optList pd.parameters) [] hidP hfnP hcid hcfn
    (by intro p hp row hrow; cases hrow) (by intro p hp row hrow; cases hrow)
  have hpgs := insertPgList_ok (optList qd.protocol_groups) [] hidG hgnG hgid hggn
    (by intro g hg row hrow; cases hrow) (by intro g hg row hrow; cases hrow)
  rw [List.nil_append] at hparams hpgs
  -- cross-reference validity gives owned foreign keys
  have hx := crossRef_valid_nil pd qd hxref
  unfold crossRefErrors at hx
  rcases List.append_eq_nil.1 hx with ⟨hx3, hD⟩
  rcases List.append_eq_nil.1 hx3 with ⟨_, hC⟩
  unfold validate_internal_parameter_refs at hC
  rcases List.append_eq_nil.1 hC with ⟨hCxy, hCz⟩
  rcases List.append_eq_nil.1 hCxy with ⟨hCx, hCy⟩
  unfold validate_internal_protocol_refs at hD
  have hbcOwned := danglingFrom_nil "parameter_id" _ XRefErr.breadcrumbBadRef _ 0 hCx
  have hvgOwned := danglingFrom_nil "parameter_id" _ XRefErr.vg5BadRef _ 0 hCy
  have habOwned := danglingFrom_nil "parameter_id" _ XRefErr.abbrBadRef _ 0 hCz
  have hprOwned := danglingFrom_nil "group_id" _ XRefErr.protocolBadRef _ 0 hD
  -- resolve an owned parameter id to a parameter-table row
  have hresolveP : ∀ v, v ∈ presentVals "id" (optList pd.parameters) →
      ∃ pr ∈ (optList pd.parameters).map paramRowOf, Val.VInt pr.id = v := by
    intro v hv
    obtain ⟨p, hp, hpv⟩ := (presentVals_mem "id" (optList pd.parameters) v).1 hv
    obtain ⟨n, hn⟩ := hidP p hp
    refine ⟨paramRowOf p, List.mem_map_of_mem _ hp, ?_⟩
    rw [paramRowOf_id p n hn]
    rw [hn] at hpv
    injection hpv
  have hresolveG : ∀ v, v ∈ presentVals "id" (optList qd.protocol_groups) →
      ∃ g ∈ (optList qd.protocol_groups).map pgRowOf, Val.VInt g.id = v := by
    intro v hv
    obtain ⟨g, hg, hgv⟩ := (presentVals_mem "id" (optList qd.protocol_groups) v).1 hv
    obtain ⟨n, hn⟩ := hidG g hg
    refine ⟨pgRowOf g, List.mem_map_of_mem _ hg, ?_⟩
    rw [pgRowOf_id g n hn]
    rw [hn] at hgv
    injection hgv
  refine ⟨⟨(optList pd.parameters).map paramRowOf,
    bcRowsFrom 0 (optList pd.breadcrumb_fields),
    vg5RowsFrom 0 (optList pd.vg5_fields),
    abbrRowsFrom 0 (optList pd.abbr_metrics),
    (optList qd.protocol_groups).map pgRowOf,
    protoRowsFrom 0 (optList qd.protocols)⟩,
    ?_, ?_, ?_, ?_, ?_, ?_, ?_, ?_, ?_, ?_, ?_, ?_, ?_⟩
  · simp only [generate_database, Bind.bind, Except.bind, hparams, hpgs,
      insertBcList_eq, insertVg5List_eq, insertAbbrList_eq, insertProtoList_eq,
      List.nil_append, List.length_nil, Pure.pure, Except.pure]
  · simp
  · have := congrArg List.length (protoRowsFrom_map_gid (optList qd.protocols) 0)
    simpa using this
  · rw [List.map_map]
    apply map_congr_mem
    intro p hp
    obtain ⟨n, hn⟩ := hidP p hp
    simp [Function.comp, paramRowOf_id p n hn, hn]
  · rw [List.map_map]
    apply map_congr_mem
    intro g hg
    obtain ⟨n, hn⟩ := hidG g hg
    simp [Function.comp, pgRowOf_id g n hn, hn]
  · exact bcRowsFrom_map_pid _ 0
  · exact vg5RowsFrom_map_pid _ 0
  · exact abbrRowsFrom_map_pid _ 0
  · exact protoRowsFrom_map_gid _ 0
  · intro r hr v hv
    obtain ⟨b, hb, he⟩ := mem_bcRowsFrom _ 0 r hr
    rw [he] at hv
    exact hresolveP v (hbcOwned b hb v hv)
  · intro r hr v hv
    obtain ⟨b, hb, he⟩ := mem_vg5RowsFrom _ 0 r hr
    rw [he] at hv
    exact hresolveP v (hvgOwned b hb v hv)
  · intro r hr v hv
    obtain ⟨a, ha, he⟩ := mem_abbrRowsFrom _ 0 r hr
    rw [he] at hv
    exact hresolveP v (habOwned a ha v hv)
  · intro r hr v hv
    obtain ⟨p, hp, he⟩ := mem_protoRowsFrom _ 0 r hr
    rw [he] at hv
    exact hresolveG v (hprOwned p hp v hv)

/-- Witness for C7 at the fully valid Scenario-A pair: every validation
stage passes and the materialized artifact exists with matching row
counts. -/
theorem c7_materialization_round_trip_witness :
    (schema_check_parameters exParamsDoc).1 = true ∧
    (schema_check_protocols exProtosDoc).1 = true ∧
    (validate_parameters_business_logic (.parsed exParamsDoc)).1 = true ∧
    (validate_protocols_business_logic (.parsed exProtosDoc)).1 = true ∧
    (validate_cross_references (.parsed exParamsDoc) (.parsed exProtosDoc)).1 = true ∧
    (validate_bidirectional_consistency (.parsed exParamsDoc) (.parsed exProtosDoc)).1 = true ∧
    (∃ db, generate_database exParamsDoc exProtosDoc = .ok db ∧
      db.parameters.length = (optList exParamsDoc.parameters).length ∧
      db.protocols.length = (optList exProtosDoc.protocols).length) := by
  refine ⟨rfl, rfl, by decide, by decide, by decide, by decide, ?_⟩
  obtain ⟨db, h1, h2, h3, _⟩ :=
    c7_materialization_round_trip exParamsDoc exProtosDoc rfl rfl (by decide) (by decide)
      (by decide) (by decide)
  exact ⟨db, h1, h2, h3⟩

end CDD
